import Mathlib

/-!
# Verification of the local-suspender encrypted-state engine

Shallow embedding, in Lean 4, of the parts of the `local-suspender`
repository that the frozen claims are about:

* the state codec (`extension/state-codec.js`): `normalizeEntry`,
  `decodeLegacyState`, `decodeCompactState`, `decodeStateAny`,
  `encodeTuple`, `encodeStateV2`;
* the one-shot resume-token flow
  (`extension/unsuspend-token-flow.js`): `processUnsuspendTokenMessage`;
* the encryption/key-record module (`extension/encryption.js`):
  `deriveWrappingKey`, `wrapDataKey`, `unwrapDataKey`,
  `persistKeyRecord`, `loadKeyRecord`, `setCloudBackupEnabled`;
* the background state store (`extension/background.js`): `loadState`,
  `saveStateInternal`, `saveState`, `stateWriteBlockedReason`,
  `stateIsWritable`, `lockedMutationResponse`, `resetEncryption`, and the
  promise-chain mutex `withStateLock`.

JavaScript values that flow through the codec are modelled by the `JVal`
type below.  Finite JS numbers are modelled by `Rat` (an abstraction of
finite IEEE doubles adequate for the integer/decimal arithmetic the code
performs); the non-finite numbers (NaN, plus/minus Infinity) are collapsed
into the single constructor `JVal.nan`, which is all the code ever
distinguishes (every use is behind `Number.isFinite` / `Number.isInteger`).
The numeric coercion `Number(v)` is modelled by `jsToNumber`; for strings
it covers the non-negative decimal-integer literals (the only string
shapes the repository ever feeds it - object keys produced by
`String(tabId)`), and conservatively maps every other string to `nan`.
-/

/-- Model of a JavaScript value, as manipulated by the state codec.
`undef` is JavaScript `undefined` (also the result of reading an absent
property); `nan` stands for the non-finite numbers; `num` carries a finite
number as a rational. Objects are association lists of own enumerable
properties in insertion order. -/
inductive JVal : Type where
  | undef : JVal
  | null : JVal
  | bool : Bool → JVal
  | num : Rat → JVal
  | nan : JVal
  | str : String → JVal
  | arr : List JVal → JVal
  | obj : List (String × JVal) → JVal

/-- JavaScript truthiness: `undefined`, `null`, `false`, `0`, `NaN` and the
empty string are falsy; arrays and objects are always truthy. -/
def JVal.truthy : JVal → Bool
  | .undef => false
  | .null => false
  | .bool b => b
  | .num q => q ≠ 0
  | .nan => false
  | .str s => s ≠ ""
  | .arr _ => true
  | .obj _ => true

/-- `typeof v === 'object' && v` : a truthy value of object type
(arrays and plain objects; `null` has object type but is falsy, so the
guards in the source that combine the two checks reject it either way). -/
def JVal.isObjectLike : JVal → Bool
  | .arr _ => true
  | .obj _ => true
  | _ => false

/-- Property read `v[k]`; absent properties (and reads on non-objects,
which the source only performs behind optional chaining or object-type
guards) give `undefined`. For an object with duplicate keys the first
occurrence wins (the source never builds duplicate keys). -/
def JVal.getField : JVal → String → JVal
  | .obj fs, k =>
      match fs.find? (fun p => p.1 = k) with
      | some p => p.2
      | none => (.undef)
  | _, _ => (.undef)

/-- Keys with a first-occurrence-wins discipline, so that `entriesOf`
agrees with `getField` on every key. -/
def dedupKeys : List (String × JVal) → List (String × JVal)
  | [] => []
  | p :: rest => p :: dedupKeys (rest.filter (fun q => q.1 ≠ p.1))
termination_by l => l.length
decreasing_by
  simp only [List.length_cons]
  exact Nat.lt_succ_of_le (List.length_filter_le _ _)

/-- Decimal rendering of a natural number, i.e. JavaScript `String(n)`
for a non-negative integer `n`. -/
def jsNatToString (n : Nat) : String :=
  if n = 0 then "0"
  else ⟨((Nat.digits 10 n).reverse.map (fun d => Char.ofNat (48 + d)))⟩

/-- `Object.entries(v)`: an object's own entries in insertion order; an
array's elements keyed by their decimal indices; a string's characters
keyed likewise; nothing for the other primitives. -/
def JVal.entriesOf : JVal → List (String × JVal)
  | .obj fs => dedupKeys fs
  | .arr xs => xs.enum.map (fun p => (jsNatToString p.1, p.2))
  | .str s => s.data.enum.map (fun p => (jsNatToString p.1, .str (String.singleton p.2)))
  | _ => []

/-- Value of a decimal digit list read most-significant first. -/
def decimalValue (cs : List Char) : Nat :=
  cs.foldl (fun acc c => 10 * acc + (c.toNat - 48)) 0

/-- JavaScript `Number(s)` for a string `s`, modelled on the
non-negative decimal-integer literals: the empty string converts to `0`,
a non-empty all-digit string to its decimal value, and every other
string conservatively to `nan`.  (The repository only ever converts
strings that were produced by `String(tabId)` for an integer tab id.) -/
def jsStringToNumber (s : String) : JVal :=
  if s = "" then .num 0
  else if s.data.all Char.isDigit then .num (decimalValue s.data)
  else .nan

/-- JavaScript `Number(v)`. Objects and non-empty arrays are modelled
conservatively as converting to `nan` (the repository never converts
them). -/
def jsToNumber : JVal → JVal
  | .undef => .nan
  | .null => .num 0
  | .bool b => .num (if b then 1 else 0)
  | .num q => .num q
  | .nan => .nan
  | .str s => jsStringToNumber s
  | .arr [] => .num 0
  | .arr (_ :: _) => .nan
  | .obj _ => .nan

/-- `Number(v)` when it is finite, and `none` otherwise
(`Number.isFinite` fails). -/
def toFiniteNumber? (v : JVal) : Option Rat :=
  match jsToNumber v with
  | .num q => some q
  | _ => none

namespace Codec

/-- `toFiniteNumber(value, fallback)` from `state-codec.js`: coerce with
`Number`, keep the result when finite, otherwise return the fallback
unchanged (the fallback is returned as-is, whatever value it is). -/
def toFiniteNumber (value : JVal) (fallback : JVal) : JVal :=
  match toFiniteNumber? value with
  | some q => .num q
  | none => fallback

/-- `toFiniteNumber` at a numeric fallback, as a rational. -/
def toFiniteNumberR (value : JVal) (fallback : Rat) : Rat :=
  (toFiniteNumber? value).getD fallback

/-- `typeof v === 'string' ? v : d` as a string value. -/
def strOrElse (v : JVal) (d : String) : JVal :=
  match v with
  | .str s => .str s
  | _ => .str d

/-- `METHOD_DISCARD` -/
def METHOD_DISCARD : Rat := 0
/-- `METHOD_PAGE` -/
def METHOD_PAGE : Rat := 1

/-- `decodeMethod(value, fallback)`: the numeric tags `0`/`1` and the
strings `'discard'`/`'page'` decode to the respective method; anything
else falls back. -/
def decodeMethod (value : JVal) (fallback : String) : String :=
  match value with
  | .num q =>
      if q = METHOD_DISCARD then "discard"
      else if q = METHOD_PAGE then "page"
      else fallback
  | .str s =>
      if s = "discard" then "discard"
      else if s = "page" then "page"
      else fallback
  | _ => fallback

/-- `normalizeEntry(entry)`: `null` unless `entry` is an object with a
non-empty string `url`; otherwise the canonical in-memory entry - method
defaulted from the presence of token data, numeric fields made finite,
and the three token fields attached exactly when the method is `page`. -/
def normalizeEntry (entry : JVal) : Option JVal :=
  if ¬entry.isObjectLike then none
  else
    match entry.getField "url" with
    | .str url =>
        if url = "" then none
        else
          let method := decodeMethod (entry.getField "method")
            (if (entry.getField "token").truthy ∨ (entry.getField "tokenIssuedAt").truthy
              then "page" else "discard")
          let suspendedAt := toFiniteNumberR (entry.getField "suspendedAt") 0
          let base : List (String × JVal) :=
            [("url", .str url),
             ("title", strOrElse (entry.getField "title") ""),
             ("windowId", .num (toFiniteNumberR (entry.getField "windowId") 0)),
             ("suspendedAt", .num suspendedAt),
             ("method", .str method),
             ("reason", strOrElse (entry.getField "reason") ""),
             ("favIconUrl", strOrElse (entry.getField "favIconUrl") "")]
          if method = "page" then
            some (.obj (base ++
              [("token", strOrElse (entry.getField "token") ""),
               ("tokenIssuedAt", .num (toFiniteNumberR (entry.getField "tokenIssuedAt") suspendedAt)),
               ("tokenUsed", .bool (entry.getField "tokenUsed").truthy)]))
          else some (.obj base)
    | _ => none

/-- Property assignment `m[k] = v` on a string-keyed object: updates the
value in place when the key exists, appends otherwise. -/
def setKey (l : List (String × JVal)) (k : String) (v : JVal) : List (String × JVal) :=
  if l.any (fun p => p.1 = k) then l.map (fun p => if p.1 = k then (k, v) else p)
  else l ++ [(k, v)]

/-- The loop body of `decodeLegacyState`: normalize one entry and
assign it, skipping malformed ones. -/
def decodeLegacyFold (acc : List (String × JVal)) (p : String × JVal) :
    List (String × JVal) :=
  match normalizeEntry p.2 with
  | none => acc
  | some e => setKey acc p.1 e

/-- `decodeLegacyState(raw)`: the keyed-object (legacy) decoding - every
entry of `raw.suspendedTabs` is normalized, dropped when malformed. -/
def decodeLegacyState (raw : JVal) : JVal :=
  let source := raw.getField "suspendedTabs"
  if ¬source.isObjectLike then .obj [("suspendedTabs", .obj [])]
  else .obj [("suspendedTabs", .obj (source.entriesOf.foldl decodeLegacyFold []))]

/-- One tuple of the compact (v2) decoding: `none` when the tuple is too
short, the tab id is not a positive integer, or the url is empty;
otherwise the decoded key (the tab id rendered back to a string by the
object assignment) and entry. -/
def decodeTuple (tuple : List JVal) : Option (String × JVal) :=
  if tuple.length < 11 then none
  else
    match toFiniteNumber? (tuple.getD 0 .undef) with
    | none => none
    | some tabId =>
        if ¬(tabId.den = 1 ∧ 0 < tabId) then none
        else
          let method := decodeMethod (tuple.getD 5 .undef) "page"
          let url :=
            match tuple.getD 1 .undef with
            | .str s => s
            | _ => ""
          if url = "" then none
          else
            let suspendedAt := toFiniteNumberR (tuple.getD 4 .undef) 0
            let base : List (String × JVal) :=
              [("url", .str url),
               ("title", strOrElse (tuple.getD 2 .undef) ""),
               ("windowId", .num (toFiniteNumberR (tuple.getD 3 .undef) 0)),
               ("suspendedAt", .num suspendedAt),
               ("method", .str method),
               ("reason", strOrElse (tuple.getD 6 .undef) ""),
               ("favIconUrl", strOrElse (tuple.getD 10 .undef) "")]
            let entry :=
              if method = "page" then
                base ++
                  [("token", strOrElse (tuple.getD 7 .undef) ""),
                   ("tokenIssuedAt", .num (toFiniteNumberR (tuple.getD 8 .undef) suspendedAt)),
                   ("tokenUsed", .bool
                     (match tuple.getD 9 .undef with
                      | .num q => q = 1
                      | .bool b => b
                      | _ => false))]
              else base
            some (jsNatToString tabId.num.toNat, .obj entry)

/-- The loop body of `decodeCompactState`: decode one tuple and assign
it, skipping non-arrays and malformed tuples. -/
def decodeCompactFold (acc : List (String × JVal)) (t : JVal) :
    List (String × JVal) :=
  match t with
  | .arr l =>
      match decodeTuple l with
      | some (k, e) => setKey acc k e
      | none => acc
  | _ => acc

/-- `decodeCompactState(raw)`: decode the ordered tuple list `raw.tabs`,
skipping non-arrays and malformed tuples. -/
def decodeCompactState (raw : JVal) : JVal :=
  let tuples :=
    match raw.getField "tabs" with
    | .arr xs => xs
    | _ => []
  .obj [("suspendedTabs", .obj (tuples.foldl decodeCompactFold []))]

/-- `decodeStateAny(raw)`: non-objects give the empty state; a `v === 2`
tag selects the compact decoding, anything else the legacy decoding. -/
def decodeStateAny (raw : JVal) : JVal :=
  if ¬raw.isObjectLike then .obj [("suspendedTabs", .obj [])]
  else
    match raw.getField "v" with
    | .num q => if q = 2 then decodeCompactState raw else decodeLegacyState raw
    | _ => decodeLegacyState raw

/-- `encodeTuple(tabId, entry)`: the fixed-position 11-tuple for one
(already normalized) entry; the string key is coerced back to a number. -/
def encodeTuple (tabId : String) (entry : JVal) : JVal :=
  let method := decodeMethod (entry.getField "method") "page"
  .arr
    [jsToNumber (.str tabId),
     strOrElse (entry.getField "url") "",
     strOrElse (entry.getField "title") "",
     .num (toFiniteNumberR (entry.getField "windowId") 0),
     .num (toFiniteNumberR (entry.getField "suspendedAt") 0),
     .num (if method = "discard" then METHOD_DISCARD else METHOD_PAGE),
     strOrElse (entry.getField "reason") "",
     (if method = "page" then
        match entry.getField "token" with
        | .str t => .str t
        | _ => .str ""
      else .str ""),
     (if method = "page" then
        toFiniteNumber (entry.getField "tokenIssuedAt") (entry.getField "suspendedAt")
      else .num 0),
     .num (if method = "page" ∧ (entry.getField "tokenUsed").truthy then 1 else 0),
     strOrElse (entry.getField "favIconUrl") ""]

/-- Sort key of `entries.sort((a, b) => Number(a[0]) - Number(b[0]))`;
a key whose coercion is not finite compares as `0`. -/
def entryKeyNum (p : String × JVal) : Rat :=
  match jsToNumber (.str p.1) with
  | .num q => q
  | _ => 0

/-- `encodeStateV2(state)`: normalize every entry of
`state.suspendedTabs` (dropping malformed ones), sort by numeric tab id,
and emit the version-tagged compact tuple list. -/
def encodeStateV2 (state : JVal) : JVal :=
  let source := state.getField "suspendedTabs"
  let entries := if source.truthy then source.entriesOf else []
  let sorted := entries.mergeSort (fun a b => entryKeyNum a ≤ entryKeyNum b)
  .obj [("v", .num 2), ("tabs", .arr
    (sorted.filterMap (fun p => (normalizeEntry p.2).map (encodeTuple p.1))))]

end Codec

/-! ## Typed canonical state

A typed rendering of the spec's `SuspendedItemEntry` / `CanonicalState`
data model, with an injection into the `JVal` world so that the codec
round trip can be stated: option-valued token fields model the presence
or absence of the corresponding object properties. -/

/-- The `method` enum of a suspended-item entry. -/
inductive CMethod : Type where
  | discard : CMethod
  | page : CMethod
  deriving DecidableEq

/-- A typed suspended-item entry. -/
structure CEntry : Type where
  url : String
  title : String
  windowId : Rat
  suspendedAt : Rat
  method : CMethod
  reason : String
  favIconUrl : String
  token : Option String
  tokenIssuedAt : Option Rat
  tokenUsed : Option Bool

/-- The method rendered as the string used in the JS objects. -/
def CMethod.toStr : CMethod → String
  | .discard => "discard"
  | .page => "page"

/-- The JS object a typed entry denotes; an option field that is `none`
is an absent property. -/
def CEntry.toJVal (e : CEntry) : JVal :=
  .obj
    ([("url", .str e.url),
      ("title", .str e.title),
      ("windowId", .num e.windowId),
      ("suspendedAt", .num e.suspendedAt),
      ("method", .str e.method.toStr),
      ("reason", .str e.reason),
      ("favIconUrl", .str e.favIconUrl)]
     ++ (match e.token with
         | some t => [("token", JVal.str t)]
         | none => [])
     ++ (match e.tokenIssuedAt with
         | some q => [("tokenIssuedAt", JVal.num q)]
         | none => [])
     ++ (match e.tokenUsed with
         | some b => [("tokenUsed", JVal.bool b)]
         | none => []))

/-- The normalization that `normalizeEntry` performs, at the typed
level: a `page` entry gets all three token fields (with the source's
defaults), a `discard` entry none of them. -/
def normalizeC (e : CEntry) : CEntry :=
  match e.method with
  | .page =>
      { e with
        token := some (e.token.getD "")
        tokenIssuedAt := some (e.tokenIssuedAt.getD e.suspendedAt)
        tokenUsed := some (e.tokenUsed.getD false) }
  | .discard =>
      { e with token := none, tokenIssuedAt := none, tokenUsed := none }

/-- A typed canonical state: entries keyed by tab id. -/
abbrev CState : Type := List (Nat × CEntry)

/-- A valid canonical state: positive ids, no duplicate ids, non-empty
urls. -/
def ValidCState (s : CState) : Prop :=
  (∀ p ∈ s, 0 < p.1 ∧ p.2.url ≠ "") ∧ (s.map Prod.fst).Nodup

/-- The JS object a typed state denotes (keys are the decimal renderings
of the ids, as JavaScript object keys are strings). -/
def CState.toJVal (s : CState) : JVal :=
  .obj [("suspendedTabs", .obj (s.map (fun p => (jsNatToString p.1, p.2.toJVal))))]

/-- Typed lookup by id. -/
def CState.lookup (s : CState) (id : Nat) : Option CEntry :=
  match s.find? (fun p => p.1 = id) with
  | some p => some p.2
  | none => none

/-- The entry a decoded state object holds at a given key. -/
def decodedEntry (v : JVal) (key : String) : JVal :=
  (v.getField "suspendedTabs").getField key

/-- The key list of a decoded state object. -/
def decodedKeys (v : JVal) : List String :=
  match v.getField "suspendedTabs" with
  | .obj l => l.map Prod.fst
  | _ => []

/-- Well-formedness of one decoded entry object (C10): the url is a
non-empty string, the method is one of the two method strings, and the
three token fields are present (with their canonical types) exactly
when the method is `page` - a `discard` entry carries none of them. -/
def wfEntry (e : JVal) : Prop :=
  (∃ u : String, e.getField "url" = JVal.str u ∧ u ≠ "")
  ∧ ((e.getField "method" = JVal.str "discard"
        ∧ e.getField "token" = JVal.undef
        ∧ e.getField "tokenIssuedAt" = JVal.undef
        ∧ e.getField "tokenUsed" = JVal.undef)
     ∨ (e.getField "method" = JVal.str "page"
        ∧ (∃ t : String, e.getField "token" = JVal.str t)
        ∧ (∃ q : Rat, e.getField "tokenIssuedAt" = JVal.num q)
        ∧ (∃ b : Bool, e.getField "tokenUsed" = JVal.bool b)))

/-- A concrete two-entry canonical state (one `page` entry with token
data, one `discard` entry), used to instantiate the round-trip
theorem. -/
def sampleCState : CState :=
  [(1, ⟨"https://a.example/", "A", 3, 1000, CMethod.page, "idle", "favA",
      some "tok1", some 1500, some false⟩),
   (2, ⟨"https://b.example/", "B", 4, 2000, CMethod.discard, "manual", "",
      none, none, none⟩)]

/-! ## The one-shot resume-token flow

`processUnsuspendTokenMessage` from `extension/unsuspend-token-flow.js`.
The function is written against injected dependencies; the embedding
models the setting the claims (and the repository's own tests) put it
in: a single-threaded run in which `withStateLock(fn)` runs `fn` to
completion, `loadState`/`saveState` read and write one threaded state,
`stateIsWritable` is constant during the run, and the external
`resumeSuspendedTab` capability is an arbitrary function that may both
report success/failure and change the state (it runs outside the state
lock, so concurrent mutators may run during its await). Entries carry
exactly the fields the flow reads and writes. -/

namespace TokenFlow

/-- The fields of a suspended-tab entry the token flow touches.
`tokenUsed` is `some true` exactly when the JS field is truthy-set;
`none` models an absent field. Timestamps are integer milliseconds. -/
structure FlowEntry : Type where
  token : Option String
  tokenUsed : Option Bool
  tokenIssuedAt : Option Int
  suspendedAt : Option Int
  deriving DecidableEq, Repr

/-- The state the flow mutates: entries keyed by tab id. -/
abbrev FlowState : Type := List (Nat × FlowEntry)

/-- `state.suspendedTabs?.[tabId]` -/
def lookupTab : FlowState → Nat → Option FlowEntry
  | [], _ => none
  | p :: rest, k => if p.1 = k then some p.2 else lookupTab rest k

/-- In-place update of the entry at a key (the flow only ever updates
existing entries; a missing key appends, as JS assignment would). -/
def setTab (st : FlowState) (k : Nat) (e : FlowEntry) : FlowState :=
  if st.any (fun p => p.1 = k) then st.map (fun p => if p.1 = k then (k, e) else p)
  else st ++ [(k, e)]

/-- `delete state.suspendedTabs?.[tabId]` -/
def eraseTab (st : FlowState) (k : Nat) : FlowState :=
  st.filter (fun p => p.1 ≠ k)

/-- Truthiness of `entry.tokenUsed`. -/
def tokenUsedTruthy (e : FlowEntry) : Bool := e.tokenUsed = some true

/-- Truthiness of an optional number (absent and `0` are falsy). -/
def numTruthy : Option Int → Bool
  | none => false
  | some n => n ≠ 0

/-- `entry.tokenIssuedAt || entry.suspendedAt` -/
def jsOrNum (a b : Option Int) : Option Int :=
  if numTruthy a then a else b

/-- The response values the flow returns (`{ok:true}`,
the `lockedMutationResponse()` object, and the `{ok:false, error}`
responses). -/
inductive FlowRes : Type where
  | okRes : FlowRes
  | lockedRes : FlowRes
  | invalidToken : FlowRes
  | usedRes : FlowRes
  | expiredRes : FlowRes
  | resumeFailed : FlowRes
  deriving DecidableEq, Repr

/-- Outcome of a run: the response, the final state, and how many times
`saveState` was called. -/
structure FlowOutcome : Type where
  result : FlowRes
  state : FlowState
  saves : Nat
  deriving DecidableEq, Repr

/-- `processUnsuspendTokenMessage` - reserve (mark the token used and
persist, before attempting the resume), execute (the external resume
action, outside the lock; it may mutate the state), finalize (delete the
entry and persist). `writable` is the constant value of the injected
`stateIsWritable`; `resumeSuspendedTab` returns its success flag and the
state as of the end of its await. -/
def processUnsuspendTokenMessage (tabId : Nat) (token : String) (tokenTtlMs : Int)
    (now : Int) (writable : Bool)
    (resumeSuspendedTab : FlowState → Bool × FlowState) (st : FlowState) : FlowOutcome :=
  if ¬writable then ⟨.lockedRes, st, 0⟩
  else
    -- prepare phase, under the state lock (writability re-checked inside)
    if ¬writable then ⟨.lockedRes, st, 0⟩
    else
      match lookupTab st tabId with
      | none => ⟨.invalidToken, st, 0⟩
      | some entry =>
        if entry.token ≠ some token then ⟨.invalidToken, st, 0⟩
        else if tokenUsedTruthy entry then ⟨.usedRes, st, 0⟩
        else
          let issuedAt := jsOrNum entry.tokenIssuedAt entry.suspendedAt
          if tokenTtlMs ≠ 0 ∧ numTruthy issuedAt ∧ now - issuedAt.getD 0 > tokenTtlMs then
            ⟨.expiredRes, st, 0⟩
          else
            -- strict one-shot: consume the token, persist, then resume
            let st1 := setTab st tabId { entry with tokenUsed := some true }
            let r := resumeSuspendedTab st1
            if ¬r.1 then ⟨.resumeFailed, r.2, 1⟩
            else
              -- finalize phase, under the state lock
              if ¬writable then ⟨.lockedRes, r.2, 1⟩
              else ⟨.okRes, eraseTab r.2 tabId, 2⟩

/-- A resume action that reports a fixed outcome and leaves the state
alone (the repository's own tests instantiate it this way). -/
def pureResume (b : Bool) : FlowState → Bool × FlowState := fun st => (b, st)

end TokenFlow

/-! ## The encryption / key-record module

`extension/encryption.js`. The AES-GCM / PBKDF2 primitives are the black
box the spec declares them to be; they are modelled symbolically: a
wrapping key is identified by its derivation inputs (`WrapParams`), a
ciphertext (`Cipher`) carries the key and IV it was produced under
together with its plaintext, and decryption succeeds exactly when key
and IV match. Randomness (fresh salts, IVs, generated keys) and the
current time are supplied as explicit arguments. Base64-encoded byte
strings are modelled as byte lists. -/

namespace Encryption

/-- A PBKDF2-derived AES-GCM wrapping key, identified by its derivation
inputs. -/
structure WrapParams : Type where
  passkey : String
  salt : List Nat
  iterations : Int
  deriving DecidableEq, Repr

/-- A symbolic AES-GCM ciphertext: decrypts (to `plain`) exactly under
the key and IV it was produced with. -/
structure Cipher : Type where
  key : WrapParams
  iv : List Nat
  plain : String
  deriving DecidableEq, Repr

/-- The persisted key record (`encryptionKeyRecord`). Optional fields
model absent properties; `dataKey` is the plaintext exported data key of
a non-passkey record, `encryptedKey`/`keySalt`/`keyIV`/`iterations` the
wrapped form of a passkey record. -/
structure KeyRecord : Type where
  usingPasskey : Bool
  dataKey : Option String
  encryptedKey : Option Cipher
  keySalt : Option (List Nat)
  keyIV : Option (List Nat)
  iterations : Option Int
  cloudBackupEnabled : Bool
  keyVersion : Nat
  updatedAt : Int
  deriving DecidableEq, Repr

/-- `KEY_VERSION` -/
def KEY_VERSION : Nat := 1

/-- `MIN_ITERATIONS` -/
def MIN_ITERATIONS : Int := 150000

/-- Modelled from the spec: `defaultSettings.encryption.iterations` from
`extension/settings.js`, which is not among the provided sources; the
developer guide fixes the default PBKDF2 iteration count at 150k. Only
the fallback for an absent stored count depends on it. -/
def defaultIterations : Int := 150000

/-- `x || d` on an iteration count, where `0` models the falsy counts
(`0` or an absent field). -/
def jsOrIterations (n d : Int) : Int := if n = 0 then d else n

/-- The module state of `encryption.js`: the live key (in exported
form), the lock flag and reason, the two storage namespaces holding the
key record, and the fields of the settings object the module touches
(`settings.encryption.cloudBackupEnabled` and
`settings.encryption.iterations`; the settings store itself lives in
`settings.js`, outside the provided sources, and is modelled from the
spec as plain persisted fields). -/
structure EncState : Type where
  cryptoKey : Option String
  encryptionLocked : Bool
  encryptionLockReason : Option String
  syncRecord : Option KeyRecord
  localRecord : Option KeyRecord
  cloudBackupSetting : Bool
  iterationsSetting : Int
  deriving DecidableEq, Repr

/-- `deriveWrappingKey(passkey, saltBytes, iterations, enforceFloor)`:
the derivation uses `max(iterations || default, MIN_ITERATIONS)` when
the floor is enforced and `iterations || default` as-is when not. -/
def deriveWrappingKey (passkey : String) (saltBytes : List Nat) (iterations : Int)
    (enforceFloor : Bool := true) : WrapParams :=
  { passkey := passkey
    salt := saltBytes
    iterations :=
      if enforceFloor then max (jsOrIterations iterations defaultIterations) MIN_ITERATIONS
      else jsOrIterations iterations defaultIterations }

/-- The record fields `wrapDataKey` returns. -/
structure WrappedKey : Type where
  encryptedKey : Cipher
  keySalt : List Nat
  keyIV : List Nat
  iterations : Int
  deriving DecidableEq, Repr

/-- `wrapDataKey(passkey)`: wrap the live data key under a key derived
with the floor enforced, at a fresh salt and IV (supplied by the
environment); the record's `iterations` field stores the raw settings
value. -/
def wrapDataKey (passkey : String) (salt iv : List Nat) (st : EncState) :
    Except String WrappedKey :=
  match st.cryptoKey with
  | none => .error "Data key not available to wrap"
  | some raw =>
      let wrappingKey := deriveWrappingKey passkey salt st.iterationsSetting
      .ok
        { encryptedKey := { key := wrappingKey, iv := iv, plain := raw }
          keySalt := salt
          keyIV := iv
          iterations := st.iterationsSetting }

/-- `isValidKeyRecord(record)`: the wrapped fields are present and the
salt and IV decode to 16 and 12 bytes. -/
def isValidKeyRecord : Option KeyRecord → Bool
  | none => false
  | some r =>
      r.encryptedKey.isSome &&
      (match r.keySalt with
       | some s => s.length = 16
       | none => false) &&
      (match r.keyIV with
       | some iv => iv.length = 12
       | none => false)

/-- What `unwrapDataKey` computed: the wrapping-key derivation it
performed and the data key it imported. -/
structure UnwrapOutcome : Type where
  used : WrapParams
  dataKey : String
  deriving DecidableEq, Repr

/-- `unwrapDataKey(passkey, record)`: validate the record, derive the
wrapping key from the stored salt and iteration count with
`enforceFloor = false`, decrypt the wrapped key, import it as the live
key and clear the lock. (The call passes `record.iterations || default`;
the identical fallback inside `deriveWrappingKey` makes the composition
equal a single application of the fallback.) -/
def unwrapDataKey (passkey : String) (record : Option KeyRecord) (st : EncState) :
    Except String (UnwrapOutcome × EncState) :=
  if ¬isValidKeyRecord record then .error "Encrypted key record is incomplete or invalid"
  else
    match record with
    | none => .error "Encrypted key record is incomplete or invalid"
    | some r =>
        let salt := r.keySalt.getD []
        let iv := r.keyIV.getD []
        let wrappingKey :=
          deriveWrappingKey passkey salt (jsOrIterations (r.iterations.getD 0) defaultIterations) false
        match r.encryptedKey with
        | none => .error "Encrypted key record is incomplete or invalid"
        | some c =>
            if c.key = wrappingKey ∧ c.iv = iv then
              .ok
                ({ used := wrappingKey, dataKey := c.plain },
                 { st with
                     cryptoKey := some c.plain
                     encryptionLocked := false
                     encryptionLockReason := none })
            else .error "OperationError"

/-- The result object of `persistKeyRecord`. -/
structure PersistOutcome : Type where
  syncEligible : Bool
  syncBlockedReason : Option String
  deriving DecidableEq, Repr

/-- `persistKeyRecord(record)`: write the record to the cloud-synced
namespace only when it is both cloud-enabled and passkey-wrapped,
removing the synced copy otherwise; always write the local copy. -/
def persistKeyRecord (record : KeyRecord) (st : EncState) : EncState × PersistOutcome :=
  let syncEligible := record.cloudBackupEnabled && record.usingPasskey
  let st1 :=
    if syncEligible then { st with syncRecord := some record }
    else { st with syncRecord := none }
  let st2 := { st1 with localRecord := some record }
  (st2,
   { syncEligible := syncEligible
     syncBlockedReason :=
       if record.cloudBackupEnabled && !syncEligible then some "passkey-required" else none })

/-- `loadKeyRecord(preferCloud)` -/
def loadKeyRecord (preferCloud : Bool) (st : EncState) : Option KeyRecord :=
  if preferCloud then
    match st.syncRecord with
    | some r => some r
    | none => st.localRecord
  else
    match st.localRecord with
    | some r => some r
    | none => st.syncRecord

/-- `clearKeyRecords()` -/
def clearKeyRecords (st : EncState) : EncState :=
  { st with syncRecord := none, localRecord := none }

/-- `generateAndPersistDataKey(cloudBackupEnabled)`: generate a fresh
data key (supplied by the environment), persist it as a plaintext,
local-only record with the cloud flag forced off, force the cloud-backup
setting off if it was requested, and unlock. -/
def generateAndPersistDataKey (cloudBackupEnabled : Bool) (newKey : String) (now : Int)
    (st : EncState) : EncState × KeyRecord :=
  let requestedCloudBackup := cloudBackupEnabled
  let st1 := { st with cryptoKey := some newKey }
  let record : KeyRecord :=
    { usingPasskey := false
      dataKey := some newKey
      encryptedKey := none
      keySalt := none
      keyIV := none
      iterations := none
      cloudBackupEnabled := false
      keyVersion := KEY_VERSION
      updatedAt := now }
  let st2 := (persistKeyRecord record st1).1
  let st3 :=
    if requestedCloudBackup && st2.cloudBackupSetting then { st2 with cloudBackupSetting := false }
    else st2
  ({ st3 with encryptionLocked := false, encryptionLockReason := none }, record)

/-- The results `setCloudBackupEnabled` returns. -/
inductive CloudBackupRes : Type where
  | okRes : CloudBackupRes
  | passkeyRequired : CloudBackupRes
  deriving DecidableEq, Repr

/-- `setCloudBackupEnabled(enabled)`: load the preferred record (falling
back to a synthesized plaintext record when none exists but a live key
does), reject a cloud-backup request with `passkey-required` unless the
record is passkey-wrapped, and otherwise persist the new preference into
the settings and the record. -/
def setCloudBackupEnabled (enabled : Bool) (now : Int) (st : EncState) :
    EncState × CloudBackupRes :=
  let requested := enabled
  let record0 := loadKeyRecord requested st
  let record : Option KeyRecord :=
    match record0, st.cryptoKey with
    | none, some b64 =>
        some
          { usingPasskey := false
            dataKey := some b64
            encryptedKey := none
            keySalt := none
            keyIV := none
            iterations := none
            cloudBackupEnabled := false
            keyVersion := KEY_VERSION
            updatedAt := now }
    | r, _ => r
  if requested && !(match record with | some r => r.usingPasskey | none => false) then
    (st, .passkeyRequired)
  else
    let st1 := { st with cloudBackupSetting := requested }
    match record with
    | some r => ((persistKeyRecord { r with cloudBackupEnabled := requested } st1).1, .okRes)
    | none => if ¬requested then (clearKeyRecords st1, .okRes) else (st1, .okRes)

end Encryption

/-! ## The background state store

`extension/background.js`: the cached canonical state, the corruption
marker, the writability predicates, the load/save pair over the
encrypted persisted payload, and `resetEncryption`. The encrypted
payload is modelled as either absent, a plain payload, or a ciphertext
that either decrypts to a known plaintext or fails to decrypt
(`ctPayload none`) - the black-box `decryptPayload` of the spec. Runs
are sequential (each modelled operation is one `withStateLock` body). -/

namespace Background

/-- The value stored under the `suspenderState` storage key. -/
inductive StoredPayload : Type where
  | noPayload : StoredPayload
  | plainPayload (v : JVal) : StoredPayload
  | ctPayload (plaintext : Option JVal) : StoredPayload

/-- The background module state. -/
structure Bg : Type where
  enc : Encryption.EncState
  cachedState : Option JVal
  stateCorruptionReason : Option String
  encryptionEnabled : Bool
  stateKey : StoredPayload
  backups : List JVal

/-- `hasCryptoKey()` -/
def hasCryptoKey (s : Bg) : Bool := s.enc.cryptoKey.isSome

/-- `encryptionIsLocked()` -/
def encryptionIsLocked (s : Bg) : Bool := s.enc.encryptionLocked

/-- `encryptionReason()` -/
def encryptionReason (s : Bg) : Option String := s.enc.encryptionLockReason

/-- `stateIsLocked()` -/
def stateIsLocked (s : Bg) : Bool := encryptionIsLocked s || !hasCryptoKey s

/-- `stateIsCorrupt()` -/
def stateIsCorrupt (s : Bg) : Bool := s.stateCorruptionReason.isSome

/-- `stateLockReason()` -/
def stateLockReason (s : Bg) : Option String :=
  if stateIsCorrupt s then s.stateCorruptionReason else encryptionReason s

/-- `stateWriteBlockedReason()` -/
def stateWriteBlockedReason (s : Bg) : Option String :=
  if stateIsCorrupt s then some ((stateLockReason s).getD "corrupt-state")
  else if stateIsLocked s then some ((stateLockReason s).getD "locked")
  else none

/-- `stateIsWritable()` -/
def stateIsWritable (s : Bg) : Bool := (stateWriteBlockedReason s).isNone

/-- The fresh empty state `{suspendedTabs: {}}`. -/
def emptyState : JVal := .obj [("suspendedTabs", .obj [])]

/-- `lockedMutationResponse({skip})`: the structured blocked-write
response. -/
def lockedMutationResponse (s : Bg) (skip : Bool) : JVal :=
  let reason := (stateWriteBlockedReason s).getD "locked"
  if skip then .obj [("ok", .bool true), ("skipped", .str "locked"), ("reason", .str reason)]
  else .obj [("ok", .bool false), ("locked", .bool true), ("reason", .str reason)]

/-- `loadState()`: locked states get the cached placeholder without
touching storage; otherwise cache-first; otherwise read the payload -
decrypt failure marks the state corrupt and substitutes a placeholder,
success (and the plain or absent cases) clears the corruption marker. -/
def loadState (s : Bg) : Bg × JVal :=
  if stateIsLocked s then
    let c := s.cachedState.getD emptyState
    ({ s with cachedState := some c }, c)
  else
    match s.cachedState with
    | some c => (s, c)
    | none =>
        match s.stateKey with
        | .ctPayload (some v) =>
            let c := Codec.decodeStateAny v
            ({ s with cachedState := some c, stateCorruptionReason := none }, c)
        | .ctPayload none =>
            ({ s with stateCorruptionReason := some "corrupt-state",
                      cachedState := some emptyState }, emptyState)
        | .plainPayload v =>
            let c := Codec.decodeStateAny v
            ({ s with stateCorruptionReason := none, cachedState := some c }, c)
        | .noPayload =>
            ({ s with stateCorruptionReason := none, cachedState := some emptyState },
             emptyState)

/-- `saveStateInternal(state)`: throws (second component `some reason`)
when a blocked-write reason exists, without touching storage; otherwise
encodes and persists the whole encoded blob in one write, encrypted when
encryption is enabled. -/
def saveStateInternal (s : Bg) (state : JVal) : Bg × Option String :=
  match stateWriteBlockedReason s with
  | some reason => (s, some reason)
  | none =>
      let encodedState := Codec.encodeStateV2 state
      if s.encryptionEnabled then
        ({ s with stateKey := .ctPayload (some encodedState) }, none)
      else
        ({ s with stateKey := .plainPayload encodedState }, none)

/-- `saveState(state)`: update the in-memory cache, then persist (the
cache update survives even when the persist throws). -/
def saveState (s : Bg) (state : JVal) : Bg × Option String :=
  saveStateInternal { s with cachedState := some state } state

/-- `resetEncryption()`: discard the session key, the key records, the
corruption marker, the cached state, the persisted state and all
snapshots; generate and persist a fresh data key; and save a fresh empty
state. -/
def resetEncryption (newKey : String) (now : Int) (s : Bg) : Bg :=
  let enc1 := Encryption.clearKeyRecords { s.enc with cryptoKey := none }
  let s1 : Bg :=
    { s with
        enc := enc1
        stateCorruptionReason := none
        cachedState := none
        stateKey := .noPayload
        backups := [] }
  let enc2 := (Encryption.generateAndPersistDataKey s1.enc.cloudBackupSetting newKey now s1.enc).1
  let s2 := { s1 with enc := enc2, cachedState := some emptyState }
  (saveState s2 emptyState).1

/-- A lock-guarded state-store operation: a read, or a mutator's write
attempt. -/
inductive StoreOp : Type where
  | loadOp : StoreOp
  | saveOp (state : JVal) : StoreOp

/-- Run one store operation. -/
def runOp (s : Bg) : StoreOp → Bg
  | .loadOp => (loadState s).1
  | .saveOp state => (saveState s state).1

/-- Run a sequence of store operations. -/
def runOps (s : Bg) (ops : List StoreOp) : Bg := ops.foldl runOp s

end Background

/-! ## The state lock

`withStateLock` from `extension/background.js`:

```
let stateLock = Promise.resolve();
async function withStateLock(fn) {
  const prev = stateLock;
  let release;
  stateLock = new Promise(r => { release = r; });
  try { await prev; return await fn(); } finally { release(); }
}
```

The host is a single-threaded cooperative event loop: code runs
atomically between `await` points. The body of `withStateLock` up to its
first `await` is therefore atomic, so the n-th call (in call order)
reads the promise installed by the (n-1)-th call as `prev` and installs
its own; its callback `fn` can only start after that previous promise
resolves, and the promise of call n resolves - in `finally`, hence on
return and on throw alike - exactly when `fn` n completes. The model
below embeds this unwound chain: task `i` (indexed in lock-request
order) may wake only once task `i-1` is done (task `0` awaits the
initially resolved promise), a woken task performs the atomic segments
of its callback one at a time against the shared state, and finishing
(the `finally` release) is independent of whether the callback returned
or threw - a callback that throws after `m` mutations is a task whose
`steps` are those `m` mutations with `throws` set. The scheduler is an
arbitrary interleaving: any enabled transition may fire. -/

namespace StateLock

/-- One mutator passed to `withStateLock`: the atomic segments of its
callback (the state mutations it performs, separated by its `await`
points), and whether it then throws instead of returning. The `finally`
in the source releases the lock identically in both cases, which is why
`throws` does not appear in the transition semantics below. -/
structure LockTask (S : Type) : Type where
  steps : List (S → S)
  throws : Bool

/-- The scheduling status of one task. -/
inductive TStatus (S : Type) : Type where
  | waiting : TStatus S
  | running (remaining : List (S → S)) : TStatus S
  | done : TStatus S

/-- The event-loop state: the shared canonical state and every task's
status, indexed in lock-request order. -/
structure LockSys (S : Type) : Type where
  shared : S
  tasks : List (TStatus S)

variable {S : Type}

/-- Run a callback's segments in order. -/
def applySteps (fs : List (S → S)) (s : S) : S := fs.foldl (fun a f => f a) s

/-- All the mutators applied serially, in lock-request order. -/
def serialRun (prog : List (LockTask S)) (s0 : S) : S :=
  prog.foldl (fun a t => applySteps t.steps a) s0

/-- The first `k` mutators applied serially. -/
def serialRunFirst (prog : List (LockTask S)) (k : Nat) (s0 : S) : S :=
  serialRun (prog.take k) s0

/-- The initial system: nothing has run, everyone awaits the chain. -/
def initSys (prog : List (LockTask S)) (s0 : S) : LockSys S :=
  { shared := s0, tasks := List.replicate prog.length TStatus.waiting }

/-- One event-loop transition of the promise-chain mutex: a task wakes
when the previous task's promise has resolved, a running task executes
its next atomic segment, and a task whose callback has completed
(returned or thrown) resolves its promise. -/
inductive withStateLockStep (prog : List (LockTask S)) : LockSys S → LockSys S → Prop where
  | wake (sys : LockSys S) (i : Nat) (t : LockTask S) :
      sys.tasks.get? i = some TStatus.waiting →
      prog.get? i = some t →
      (i = 0 ∨ sys.tasks.get? (i - 1) = some TStatus.done) →
      withStateLockStep prog sys
        { sys with tasks := sys.tasks.set i (TStatus.running t.steps) }
  | run (sys : LockSys S) (i : Nat) (f : S → S) (rest : List (S → S)) :
      sys.tasks.get? i = some (TStatus.running (f :: rest)) →
      withStateLockStep prog sys
        { shared := f sys.shared, tasks := sys.tasks.set i (TStatus.running rest) }
  | finish (sys : LockSys S) (i : Nat) :
      sys.tasks.get? i = some (TStatus.running []) →
      withStateLockStep prog sys
        { sys with tasks := sys.tasks.set i TStatus.done }

/-- The systems reachable from the initial one under any interleaving. -/
inductive lockReachable (prog : List (LockTask S)) (s0 : S) : LockSys S → Prop where
  | init : lockReachable prog s0 (initSys prog s0)
  | step {sys sys' : LockSys S} :
      lockReachable prog s0 sys → withStateLockStep prog sys sys' →
      lockReachable prog s0 sys'

/-- The frontier invariant: some prefix of the tasks is done, at most
one task is at the frontier (waiting to wake, or mid-callback), everyone
behind it still waits, and the shared state is exactly the serial run of
the completed work. -/
def lockInv (prog : List (LockTask S)) (s0 : S) (sys : LockSys S) : Prop :=
  ∃ k rest,
    sys.tasks = List.replicate k TStatus.done ++ rest ∧
    k + rest.length = prog.length ∧
    (match rest with
     | [] => sys.shared = serialRun prog s0
     | st :: tail =>
         (∀ x ∈ tail, x = TStatus.waiting) ∧
         (match st with
          | TStatus.waiting => sys.shared = serialRunFirst prog k s0
          | TStatus.running rem =>
              ∃ t pre, prog.get? k = some t ∧ t.steps = pre ++ rem ∧
                sys.shared = applySteps pre (serialRunFirst prog k s0)
          | TStatus.done => False))

end StateLock

namespace StateLock

theorem replGetLt {α : Type} (a : α) (l : List α) : ∀ {k i : Nat}, i < k →
    (List.replicate k a ++ l).get? i = some a := by
  intro k
  induction k with
  | zero => intro i h; omega
  | succ k ih =>
      intro i h
      cases i with
      | zero => rfl
      | succ i =>
          rw [List.replicate_succ, List.cons_append, List.get?_cons_succ]
          exact ih (by omega)

theorem replGetGe {α : Type} (a : α) (l : List α) : ∀ {k i : Nat}, k ≤ i →
    (List.replicate k a ++ l).get? i = l.get? (i - k) := by
  intro k
  induction k with
  | zero => intro i _; simp
  | succ k ih =>
      intro i h
      cases i with
      | zero => omega
      | succ i =>
          rw [List.replicate_succ, List.cons_append, List.get?_cons_succ,
            ih (by omega), Nat.succ_sub_succ]

theorem replSet {α : Type} (a : α) (l : List α) (b : α) : ∀ (k : Nat),
    (List.replicate k a ++ l).set k b = List.replicate k a ++ l.set 0 b := by
  intro k
  induction k with
  | zero => simp
  | succ k ih => simp [List.replicate_succ, ih]

variable {S : Type}

theorem applySteps_append (fs gs : List (S → S)) (s : S) :
    applySteps (fs ++ gs) s = applySteps gs (applySteps fs s) := by
  simp [applySteps, List.foldl_append]

theorem serialRunFirst_succ (prog : List (LockTask S)) (k : Nat) (s0 : S) (t : LockTask S)
    (h : prog.get? k = some t) :
    serialRunFirst prog (k + 1) s0 = applySteps t.steps (serialRunFirst prog k s0) := by
  have h' : prog[k]? = some t := by rw [← List.get?_eq_getElem?]; exact h
  unfold serialRunFirst serialRun
  rw [List.take_succ, h']
  simp [List.foldl_append]

theorem serialRunFirst_length (prog : List (LockTask S)) (s0 : S) :
    serialRunFirst prog prog.length s0 = serialRun prog s0 := by
  unfold serialRunFirst
  rw [List.take_length]

/-- Locating a non-`done` status inside the frontier decomposition. -/
theorem status_at {k : Nat} {rest tasks : List (TStatus S)}
    (ht : tasks = List.replicate k TStatus.done ++ rest)
    {i : Nat} {x : TStatus S} (hx : tasks.get? i = some x) (hxd : x ≠ TStatus.done) :
    k ≤ i ∧ rest.get? (i - k) = some x := by
  subst ht
  have hki : k ≤ i := by
    by_contra h
    rw [replGetLt TStatus.done rest (by omega)] at hx
    exact hxd (Option.some.inj hx).symm
  rw [replGetGe TStatus.done rest hki] at hx
  exact ⟨hki, hx⟩

/-- A lookup past the frontier hits the frontier task or a waiting one. -/
theorem rest_lookup {st : TStatus S} {tail : List (TStatus S)}
    (htail : ∀ x ∈ tail, x = TStatus.waiting) {j : Nat} {x : TStatus S}
    (h : (st :: tail).get? j = some x) : (j = 0 ∧ x = st) ∨ x = TStatus.waiting := by
  cases j with
  | zero => exact Or.inl ⟨rfl, (Option.some.inj h).symm⟩
  | succ m => exact Or.inr (htail x (List.get?_mem h))

theorem lockInv_init (prog : List (LockTask S)) (s0 : S) :
    lockInv prog s0 (initSys prog s0) := by
  refine ⟨0, List.replicate prog.length TStatus.waiting, by simp [initSys], by simp, ?_⟩
  cases hn : prog.length with
  | zero =>
      have hpe : prog = [] := List.length_eq_zero.mp hn
      subst hpe
      simp [serialRun, initSys]
  | succ n =>
      rw [List.replicate_succ]
      refine ⟨fun x hx => List.eq_of_mem_replicate hx, ?_⟩
      simp [serialRunFirst, serialRun, initSys]

theorem lockInv_step {prog : List (LockTask S)} {s0 : S} {sys sys' : LockSys S}
    (hinv : lockInv prog s0 sys) (hstep : withStateLockStep prog sys sys') :
    lockInv prog s0 sys' := by
  obtain ⟨k, rest, htasks, hlen, hrest⟩ := hinv
  cases hstep with
  | wake i t hw hp hprev =>
      obtain ⟨hki, hrg⟩ := status_at htasks hw (by intro h; cases h)
      cases rest with
      | nil => simp at hrg
      | cons st tail =>
          obtain ⟨htail, hst⟩ := hrest
          have hstd : st ≠ TStatus.done := by
            intro h
            rw [h] at hst
            exact hst
          have hik : i = k := by
            by_contra hne
            have hik' : k < i := by omega
            rcases hprev with h0 | hdone
            · omega
            · rw [htasks, replGetGe TStatus.done _ (show k ≤ i - 1 by omega)] at hdone
              rcases rest_lookup htail hdone with ⟨_, hxd⟩ | hxw
              · exact hstd hxd.symm
              · exact TStatus.noConfusion hxw
          rw [hik] at hp hrg
          rw [hik]
          have hstw : st = TStatus.waiting := by
            simpa [Nat.sub_self] using hrg
          subst hstw
          refine ⟨k, TStatus.running t.steps :: tail, ?_, by simpa using hlen, ?_⟩
          · rw [htasks, replSet]
            rfl
          · exact ⟨htail, t, [], hp, by simp, by simpa [applySteps] using hst⟩
  | run i f rem hr =>
      obtain ⟨hki, hrg⟩ := status_at htasks hr (by intro h; cases h)
      cases rest with
      | nil => simp at hrg
      | cons st tail =>
          obtain ⟨htail, hst⟩ := hrest
          rcases rest_lookup htail hrg with ⟨h0, hx⟩ | hxw
          · have hik : i = k := by omega
            rw [hik]
            subst hx
            obtain ⟨t, pre, hp, hsteps, hshared⟩ := hst
            refine ⟨k, TStatus.running rem :: tail, ?_, by simpa using hlen, ?_⟩
            · rw [htasks, replSet]
              rfl
            · refine ⟨htail, t, pre ++ [f], hp, by rw [hsteps]; simp, ?_⟩
              show f sys.shared = applySteps (pre ++ [f]) (serialRunFirst prog k s0)
              rw [applySteps_append, ← hshared]
              simp [applySteps]
          · exact TStatus.noConfusion hxw
  | finish i hf =>
      obtain ⟨hki, hrg⟩ := status_at htasks hf (by intro h; cases h)
      cases rest with
      | nil => simp at hrg
      | cons st tail =>
          obtain ⟨htail, hst⟩ := hrest
          rcases rest_lookup htail hrg with ⟨h0, hx⟩ | hxw
          · have hik : i = k := by omega
            rw [hik]
            subst hx
            obtain ⟨t, pre, hp, hsteps, hshared⟩ := hst
            have hpre : pre = t.steps := by simpa using hsteps.symm
            have hsh : sys.shared = serialRunFirst prog (k + 1) s0 := by
              rw [serialRunFirst_succ prog k s0 t hp, ← hpre]
              exact hshared
            refine ⟨k + 1, tail, ?_, ?_, ?_⟩
            · rw [htasks, replSet, List.replicate_succ']
              simp [List.append_assoc]
            · have := hlen
              simp only [List.length_cons] at this
              omega
            · cases tail with
              | nil =>
                  have hlength : k + 1 = prog.length := by
                    simpa using hlen
                  show sys.shared = serialRun prog s0
                  rw [hsh, hlength]
                  exact serialRunFirst_length prog s0
              | cons w tail' =>
                  refine ⟨fun x hx => htail x (List.mem_cons_of_mem _ hx), ?_⟩
                  have hw : w = TStatus.waiting := htail w (List.mem_cons_self _ _)
                  rw [hw]
                  exact hsh
          · exact TStatus.noConfusion hxw

theorem lockInv_of_reachable {prog : List (LockTask S)} {s0 : S} {sys : LockSys S}
    (h : lockReachable prog s0 sys) : lockInv prog s0 sys := by
  induction h with
  | init => exact lockInv_init prog s0
  | step _ hstep ih => exact lockInv_step ih hstep

end StateLock

namespace TokenFlow

theorem lookupTab_map_set (st : FlowState) (k : Nat) (e : FlowEntry)
    (h : st.any (fun p => p.1 = k) = true) :
    lookupTab (st.map (fun p => if p.1 = k then (k, e) else p)) k = some e := by
  induction st with
  | nil => simp at h
  | cons p rest ih =>
      by_cases hp : p.1 = k
      · simp [lookupTab, hp]
      · simp only [List.map_cons, if_neg hp]
        rw [lookupTab, if_neg hp]
        apply ih
        simpa [List.any_cons, hp] using h

theorem lookupTab_append_single (st : FlowState) (k : Nat) (e : FlowEntry)
    (h : st.any (fun p => p.1 = k) = false) :
    lookupTab (st ++ [(k, e)]) k = some e := by
  induction st with
  | nil => simp [lookupTab]
  | cons p rest ih =>
      simp only [List.any_cons, Bool.or_eq_false_iff] at h
      simp only [List.cons_append, lookupTab]
      rw [if_neg (by simpa using h.1)]
      exact ih h.2

theorem lookupTab_setTab_self (st : FlowState) (k : Nat) (e : FlowEntry) :
    lookupTab (setTab st k e) k = some e := by
  unfold setTab
  by_cases h : st.any (fun p => p.1 = k)
  · rw [if_pos h]
    exact lookupTab_map_set st k e h
  · rw [if_neg h]
    exact lookupTab_append_single st k e (Bool.eq_false_iff.mpr h)

theorem lookupTab_eraseTab_self (st : FlowState) (k : Nat) :
    lookupTab (eraseTab st k) k = none := by
  unfold eraseTab
  induction st with
  | nil => rfl
  | cons p rest ih =>
      by_cases hp : p.1 = k
      · rw [List.filter_cons_of_neg (by simpa using hp)]
        exact ih
      · rw [List.filter_cons_of_pos (by simpa using hp)]
        rw [lookupTab, if_neg hp]
        exact ih

/-- Evaluation of the flow on a valid reservation: when the entry is
present, the token matches, the token is unconsumed and unexpired, and
the state is writable, the run reserves (consumes the token and saves)
and then follows the resume outcome. -/
theorem process_eval (tabId : Nat) (token : String) (tokenTtlMs now : Int)
    (resume : FlowState → Bool × FlowState) (st : FlowState) (e : FlowEntry)
    (hfind : lookupTab st tabId = some e)
    (htok : e.token = some token)
    (hunused : tokenUsedTruthy e = false)
    (hfresh : ¬(tokenTtlMs ≠ 0 ∧ numTruthy (jsOrNum e.tokenIssuedAt e.suspendedAt) ∧
        now - (jsOrNum e.tokenIssuedAt e.suspendedAt).getD 0 > tokenTtlMs)) :
    processUnsuspendTokenMessage tabId token tokenTtlMs now true resume st =
      (if ¬(resume (setTab st tabId { e with tokenUsed := some true })).1 then
        ⟨FlowRes.resumeFailed, (resume (setTab st tabId { e with tokenUsed := some true })).2, 1⟩
      else
        ⟨FlowRes.okRes,
          eraseTab (resume (setTab st tabId { e with tokenUsed := some true })).2 tabId, 2⟩) := by
  unfold processUnsuspendTokenMessage
  simp only [hfind, htok, hunused]
  rw [if_neg hfresh]
  simp

end TokenFlow

/-- C1: one-shot resume-token contract. For every writable state with an
entry for the item id whose token matches, is unconsumed and unexpired:
when the external resume action succeeds the flow returns ok, the entry
is deleted, and a replay of the same token returns invalid-token; when
the resume action fails the flow returns resume-failed, the entry stays
with its token consumed (token unchanged, tokenUsed true), and a replay
of the same token returns used. -/
theorem processUnsuspendTokenMessage_one_shot
    (tabId : Nat) (token : String) (tokenTtlMs now : Int)
    (st : TokenFlow.FlowState) (e : TokenFlow.FlowEntry)
    (hfind : TokenFlow.lookupTab st tabId = some e)
    (htok : e.token = some token)
    (hunused : TokenFlow.tokenUsedTruthy e = false)
    (hfresh : ¬(tokenTtlMs ≠ 0 ∧
        TokenFlow.numTruthy (TokenFlow.jsOrNum e.tokenIssuedAt e.suspendedAt) ∧
        now - (TokenFlow.jsOrNum e.tokenIssuedAt e.suspendedAt).getD 0 > tokenTtlMs)) :
    ((TokenFlow.processUnsuspendTokenMessage tabId token tokenTtlMs now true
        (TokenFlow.pureResume true) st).result = TokenFlow.FlowRes.okRes
      ∧ TokenFlow.lookupTab
          (TokenFlow.processUnsuspendTokenMessage tabId token tokenTtlMs now true
            (TokenFlow.pureResume true) st).state tabId = none
      ∧ (TokenFlow.processUnsuspendTokenMessage tabId token tokenTtlMs now true
          (TokenFlow.pureResume true)
          (TokenFlow.processUnsuspendTokenMessage tabId token tokenTtlMs now true
            (TokenFlow.pureResume true) st).state).result
          = TokenFlow.FlowRes.invalidToken)
    ∧ ((TokenFlow.processUnsuspendTokenMessage tabId token tokenTtlMs now true
        (TokenFlow.pureResume false) st).result = TokenFlow.FlowRes.resumeFailed
      ∧ TokenFlow.lookupTab
          (TokenFlow.processUnsuspendTokenMessage tabId token tokenTtlMs now true
            (TokenFlow.pureResume false) st).state tabId
          = some { e with tokenUsed := some true }
      ∧ (TokenFlow.processUnsuspendTokenMessage tabId token tokenTtlMs now true
          (TokenFlow.pureResume false)
          (TokenFlow.processUnsuspendTokenMessage tabId token tokenTtlMs now true
            (TokenFlow.pureResume false) st).state).result
          = TokenFlow.FlowRes.usedRes) := by
  have hok := TokenFlow.process_eval tabId token tokenTtlMs now
    (TokenFlow.pureResume true) st e hfind htok hunused hfresh
  have hfail := TokenFlow.process_eval tabId token tokenTtlMs now
    (TokenFlow.pureResume false) st e hfind htok hunused hfresh
  simp only [TokenFlow.pureResume] at hok hfail
  rw [if_neg (by simp)] at hok
  rw [if_pos (by simp)] at hfail
  refine ⟨⟨?_, ?_, ?_⟩, ?_, ?_, ?_⟩
  · rw [hok]
  · rw [hok]
    exact TokenFlow.lookupTab_eraseTab_self _ tabId
  · rw [hok]
    have hnone : TokenFlow.lookupTab
        (TokenFlow.eraseTab (TokenFlow.setTab st tabId { e with tokenUsed := some true }) tabId)
        tabId = none := TokenFlow.lookupTab_eraseTab_self _ tabId
    unfold TokenFlow.processUnsuspendTokenMessage
    simp [hnone]
  · rw [hfail]
  · rw [hfail]
    exact TokenFlow.lookupTab_setTab_self st tabId _
  · rw [hfail]
    have hsome := TokenFlow.lookupTab_setTab_self st tabId { e with tokenUsed := some true }
    rw [htok] at hsome
    unfold TokenFlow.processUnsuspendTokenMessage
    simp [hsome, htok, TokenFlow.tokenUsedTruthy]

/-- Witness for C1 at the repository's own test scenario: entry
`{token:'token-1', tokenUsed:false, tokenIssuedAt:1000}` at tab 1, ttl
100000, now 2000. -/
theorem processUnsuspendTokenMessage_one_shot_witness :
    ((TokenFlow.processUnsuspendTokenMessage 1 "token-1" 100000 2000 true
        (TokenFlow.pureResume true)
        [(1, { token := some "token-1", tokenUsed := some false,
               tokenIssuedAt := some 1000, suspendedAt := none })]).result
        = TokenFlow.FlowRes.okRes
      ∧ TokenFlow.lookupTab
          (TokenFlow.processUnsuspendTokenMessage 1 "token-1" 100000 2000 true
            (TokenFlow.pureResume true)
            [(1, { token := some "token-1", tokenUsed := some false,
                   tokenIssuedAt := some 1000, suspendedAt := none })]).state 1 = none
      ∧ (TokenFlow.processUnsuspendTokenMessage 1 "token-1" 100000 2000 true
          (TokenFlow.pureResume true)
          (TokenFlow.processUnsuspendTokenMessage 1 "token-1" 100000 2000 true
            (TokenFlow.pureResume true)
            [(1, { token := some "token-1", tokenUsed := some false,
                   tokenIssuedAt := some 1000, suspendedAt := none })]).state).result
          = TokenFlow.FlowRes.invalidToken)
    ∧ ((TokenFlow.processUnsuspendTokenMessage 1 "token-1" 100000 2000 true
        (TokenFlow.pureResume false)
        [(1, { token := some "token-1", tokenUsed := some false,
               tokenIssuedAt := some 1000, suspendedAt := none })]).result
        = TokenFlow.FlowRes.resumeFailed
      ∧ TokenFlow.lookupTab
          (TokenFlow.processUnsuspendTokenMessage 1 "token-1" 100000 2000 true
            (TokenFlow.pureResume false)
            [(1, { token := some "token-1", tokenUsed := some false,
                   tokenIssuedAt := some 1000, suspendedAt := none })]).state 1
          = some { token := some "token-1", tokenUsed := some true,
                   tokenIssuedAt := some 1000, suspendedAt := none }
      ∧ (TokenFlow.processUnsuspendTokenMessage 1 "token-1" 100000 2000 true
          (TokenFlow.pureResume false)
          (TokenFlow.processUnsuspendTokenMessage 1 "token-1" 100000 2000 true
            (TokenFlow.pureResume false)
            [(1, { token := some "token-1", tokenUsed := some false,
                   tokenIssuedAt := some 1000, suspendedAt := none })]).state).result
          = TokenFlow.FlowRes.usedRes) :=
  processUnsuspendTokenMessage_one_shot 1 "token-1" 100000 2000
    [(1, { token := some "token-1", tokenUsed := some false,
           tokenIssuedAt := some 1000, suspendedAt := none })]
    { token := some "token-1", tokenUsed := some false,
      tokenIssuedAt := some 1000, suspendedAt := none }
    (by decide) (by decide) (by decide) (by decide)

/-- C2: token expiry does not consume the token. For every writable
state with a matching, unconsumed entry, a positive ttl and a truthy
issue time (taken as `tokenIssuedAt`, falling back to `suspendedAt`),
if `now - issuedAt > ttl` the flow returns expired, leaves the state
unchanged (so `tokenUsed` remains false), and performs no state write. -/
theorem processUnsuspendTokenMessage_expired
    (tabId : Nat) (token : String) (tokenTtlMs now : Int)
    (resume : TokenFlow.FlowState → Bool × TokenFlow.FlowState)
    (st : TokenFlow.FlowState) (e : TokenFlow.FlowEntry)
    (hfind : TokenFlow.lookupTab st tabId = some e)
    (htok : e.token = some token)
    (hunused : TokenFlow.tokenUsedTruthy e = false)
    (httl : 0 < tokenTtlMs)
    (hissued : TokenFlow.numTruthy (TokenFlow.jsOrNum e.tokenIssuedAt e.suspendedAt) = true)
    (hexp : now - (TokenFlow.jsOrNum e.tokenIssuedAt e.suspendedAt).getD 0 > tokenTtlMs) :
    TokenFlow.processUnsuspendTokenMessage tabId token tokenTtlMs now true resume st
      = { result := TokenFlow.FlowRes.expiredRes, state := st, saves := 0 }
      ∧ TokenFlow.lookupTab st tabId = some e
      ∧ TokenFlow.tokenUsedTruthy e = false := by
  refine ⟨?_, hfind, hunused⟩
  unfold TokenFlow.processUnsuspendTokenMessage
  simp only [hfind]
  rw [if_neg (by simp)]
  rw [if_neg (by simp)]
  rw [if_neg (by simp [htok])]
  rw [if_neg (by simp [hunused])]
  rw [if_pos ⟨by omega, hissued, hexp⟩]

/-- Witness for C2: entry `{token:'token-1', tokenUsed:false,
tokenIssuedAt:1000}` at tab 1, ttl 100000, now 2000000. -/
theorem processUnsuspendTokenMessage_expired_witness :
    TokenFlow.processUnsuspendTokenMessage 1 "token-1" 100000 2000000 true
        (TokenFlow.pureResume true)
        [(1, { token := some "token-1", tokenUsed := some false,
               tokenIssuedAt := some 1000, suspendedAt := none })]
      = { result := TokenFlow.FlowRes.expiredRes,
          state := [(1, { token := some "token-1", tokenUsed := some false,
                          tokenIssuedAt := some 1000, suspendedAt := none })],
          saves := 0 }
      ∧ TokenFlow.lookupTab
          [(1, { token := some "token-1", tokenUsed := some false,
                 tokenIssuedAt := some 1000, suspendedAt := none })] 1
        = some { token := some "token-1", tokenUsed := some false,
                 tokenIssuedAt := some 1000, suspendedAt := none }
      ∧ TokenFlow.tokenUsedTruthy
          { token := some "token-1", tokenUsed := some false,
            tokenIssuedAt := some 1000, suspendedAt := none } = false :=
  processUnsuspendTokenMessage_expired 1 "token-1" 100000 2000000
    (TokenFlow.pureResume true)
    [(1, { token := some "token-1", tokenUsed := some false,
           tokenIssuedAt := some 1000, suspendedAt := none })]
    { token := some "token-1", tokenUsed := some false,
      tokenIssuedAt := some 1000, suspendedAt := none }
    (by decide) (by decide) (by decide) (by decide) (by decide) (by decide)

/-- Counterexample to C8 as stated: the finalize phase does not
re-validate the entry against the presented token. Starting from an
entry for tab 1 with token `t1`, a resume action during whose await a
concurrent mutator replaces the entry by one with token `t2` (which no
longer matches the presented `t1`), the flow nevertheless returns ok and
deletes the replaced entry: the final state is empty. -/
theorem processUnsuspendTokenMessage_finalize_counterexample :
    TokenFlow.processUnsuspendTokenMessage 1 "t1" 0 0 true
        (fun _ => (true, [(1, { token := some "t2", tokenUsed := some false,
                                tokenIssuedAt := some 2000, suspendedAt := some 900 })]))
        [(1, { token := some "t1", tokenUsed := some false,
               tokenIssuedAt := some 1000, suspendedAt := some 900 })]
      = { result := TokenFlow.FlowRes.okRes, state := [], saves := 2 }
      ∧ (some "t2" : Option String) ≠ some "t1" := by
  constructor
  · decide
  · decide

/-- C8 as amended: after a successful external resume, the finalize
phase re-acquires the state lock, re-checks writability, reloads the
(possibly changed) state and deletes the entry for the item id
unconditionally - there is no re-validation of the entry or its token,
so an entry that no longer matches is deleted as well. -/
theorem processUnsuspendTokenMessage_finalize_unconditional
    (tabId : Nat) (token : String) (tokenTtlMs now : Int)
    (resume : TokenFlow.FlowState → Bool × TokenFlow.FlowState)
    (st : TokenFlow.FlowState) (e : TokenFlow.FlowEntry)
    (hfind : TokenFlow.lookupTab st tabId = some e)
    (htok : e.token = some token)
    (hunused : TokenFlow.tokenUsedTruthy e = false)
    (hfresh : ¬(tokenTtlMs ≠ 0 ∧
        TokenFlow.numTruthy (TokenFlow.jsOrNum e.tokenIssuedAt e.suspendedAt) ∧
        now - (TokenFlow.jsOrNum e.tokenIssuedAt e.suspendedAt).getD 0 > tokenTtlMs))
    (hres : (resume (TokenFlow.setTab st tabId { e with tokenUsed := some true })).1 = true) :
    TokenFlow.processUnsuspendTokenMessage tabId token tokenTtlMs now true resume st
      = { result := TokenFlow.FlowRes.okRes,
          state := TokenFlow.eraseTab
            (resume (TokenFlow.setTab st tabId { e with tokenUsed := some true })).2 tabId,
          saves := 2 } := by
  rw [TokenFlow.process_eval tabId token tokenTtlMs now resume st e hfind htok hunused hfresh]
  rw [if_neg (by simp [hres])]

/-- Witness for the amended C8: the counterexample scenario, where the
post-resume state holds a replaced entry and finalize deletes it. -/
theorem processUnsuspendTokenMessage_finalize_unconditional_witness :
    TokenFlow.processUnsuspendTokenMessage 1 "t1" 0 0 true
        (fun _ => (true, [(1, { token := some "t2", tokenUsed := some false,
                                tokenIssuedAt := some 2000, suspendedAt := some 900 })]))
        [(1, { token := some "t1", tokenUsed := some false,
               tokenIssuedAt := some 1000, suspendedAt := some 900 })]
      = { result := TokenFlow.FlowRes.okRes,
          state := TokenFlow.eraseTab
            ((fun _ => (true, [(1, { token := some "t2", tokenUsed := some false,
                                     tokenIssuedAt := some 2000, suspendedAt := some 900 })]))
              (TokenFlow.setTab
                [(1, { token := some "t1", tokenUsed := some false,
                       tokenIssuedAt := some 1000, suspendedAt := some 900 })] 1
                { token := some "t1", tokenUsed := some true,
                  tokenIssuedAt := some 1000, suspendedAt := some 900 })).2 1,
          saves := 2 } :=
  processUnsuspendTokenMessage_finalize_unconditional 1 "t1" 0 0
    (fun _ => (true, [(1, { token := some "t2", tokenUsed := some false,
                            tokenIssuedAt := some 2000, suspendedAt := some 900 })]))
    [(1, { token := some "t1", tokenUsed := some false,
           tokenIssuedAt := some 1000, suspendedAt := some 900 })]
    { token := some "t1", tokenUsed := some false,
      tokenIssuedAt := some 1000, suspendedAt := some 900 }
    (by decide) (by decide) (by decide) (by decide) (by decide)

namespace Background

theorem stateWriteBlockedReason_corrupt (s : Bg)
    (h : s.stateCorruptionReason = some "corrupt-state") :
    stateWriteBlockedReason s = some "corrupt-state" := by
  unfold stateWriteBlockedReason stateIsCorrupt stateLockReason stateIsCorrupt
  simp [h]

/-- One store operation preserves the corrupt marker, the undecryptable
payload, and the settings flag. -/
theorem corrupt_sticky_op (s : Bg)
    (h1 : s.stateCorruptionReason = some "corrupt-state")
    (h2 : s.stateKey = StoredPayload.ctPayload none)
    (op : StoreOp) :
    (runOp s op).stateCorruptionReason = some "corrupt-state"
    ∧ (runOp s op).stateKey = StoredPayload.ctPayload none
    ∧ (runOp s op).encryptionEnabled = s.encryptionEnabled := by
  cases op with
  | loadOp =>
      unfold runOp loadState
      by_cases hl : stateIsLocked s = true
      · simp [hl, h1, h2]
      · simp only [hl]
        cases hc : s.cachedState with
        | some c => simp [hc, h1, h2, hl]
        | none => simp [hc, h2, hl]
  | saveOp state =>
      simp only [runOp]
      unfold saveState saveStateInternal
      rw [stateWriteBlockedReason_corrupt _ (by simpa using h1)]
      simp [h1, h2]

theorem corrupt_sticky_ops (s : Bg)
    (h1 : s.stateCorruptionReason = some "corrupt-state")
    (h2 : s.stateKey = StoredPayload.ctPayload none)
    (ops : List StoreOp) :
    (runOps s ops).stateCorruptionReason = some "corrupt-state"
    ∧ (runOps s ops).stateKey = StoredPayload.ctPayload none
    ∧ (runOps s ops).encryptionEnabled = s.encryptionEnabled := by
  induction ops generalizing s with
  | nil => exact ⟨h1, h2, rfl⟩
  | cons op rest ih =>
      obtain ⟨g1, g2, g3⟩ := corrupt_sticky_op s h1 h2 op
      obtain ⟨r1, r2, r3⟩ := ih (runOp s op) g1 g2
      exact ⟨r1, r2, by rw [runOps, List.foldl_cons] at *; rw [r3, g3]⟩

/-- `resetEncryption` leaves a fresh, empty, writable, encrypted state
with a fresh local-only plaintext key record. -/
theorem resetEncryption_fresh (newKey : String) (now : Int) (s : Bg)
    (henc : s.encryptionEnabled = true) :
    (resetEncryption newKey now s).stateCorruptionReason = none
    ∧ stateIsWritable (resetEncryption newKey now s) = true
    ∧ (resetEncryption newKey now s).cachedState = some emptyState
    ∧ (resetEncryption newKey now s).stateKey
        = StoredPayload.ctPayload (some (Codec.encodeStateV2 emptyState))
    ∧ (resetEncryption newKey now s).backups = []
    ∧ (resetEncryption newKey now s).enc.cryptoKey = some newKey
    ∧ (resetEncryption newKey now s).enc.syncRecord = none := by
  unfold resetEncryption Encryption.generateAndPersistDataKey Encryption.persistKeyRecord
    Encryption.clearKeyRecords saveState saveStateInternal
  by_cases hcb : s.enc.cloudBackupSetting = true
  · simp [hcb, stateWriteBlockedReason, stateIsCorrupt, stateIsLocked, stateLockReason,
      encryptionIsLocked, hasCryptoKey, stateIsWritable, encryptionReason, henc]
  · simp [hcb, stateWriteBlockedReason, stateIsCorrupt, stateIsLocked, stateLockReason,
      encryptionIsLocked, hasCryptoKey, stateIsWritable, encryptionReason, henc]

end Background

/-- C4: corruption stickiness. When the persisted payload fails to
decrypt in `loadState`, the state is marked corrupt, writability is
lost, every subsequent load/save keeps the marker and blocks writes
with reason `corrupt-state` without persisting anything, and an
explicit `resetEncryption` clears the marker, discards the encrypted
state and snapshots, installs a fresh key, and leaves a fresh empty
writable state. -/
theorem loadState_corrupt_sticky_until_reset (s : Background.Bg)
    (hcache : s.cachedState = none)
    (hlock : Background.stateIsLocked s = false)
    (hkey : s.stateKey = Background.StoredPayload.ctPayload none)
    (henc : s.encryptionEnabled = true) :
    ((Background.loadState s).1.stateCorruptionReason = some "corrupt-state"
      ∧ Background.stateIsWritable (Background.loadState s).1 = false)
    ∧ (∀ ops : List Background.StoreOp,
        Background.stateWriteBlockedReason
            (Background.runOps (Background.loadState s).1 ops) = some "corrupt-state"
        ∧ Background.stateIsWritable (Background.runOps (Background.loadState s).1 ops) = false
        ∧ (Background.runOps (Background.loadState s).1 ops).stateKey
            = Background.StoredPayload.ctPayload none
        ∧ ∀ state, Background.saveStateInternal
              (Background.runOps (Background.loadState s).1 ops) state
            = (Background.runOps (Background.loadState s).1 ops, some "corrupt-state"))
    ∧ (∀ (newKey : String) (now : Int) (ops : List Background.StoreOp),
        (Background.resetEncryption newKey now
            (Background.runOps (Background.loadState s).1 ops)).stateCorruptionReason = none
        ∧ Background.stateIsWritable (Background.resetEncryption newKey now
            (Background.runOps (Background.loadState s).1 ops)) = true
        ∧ (Background.resetEncryption newKey now
            (Background.runOps (Background.loadState s).1 ops)).cachedState
            = some Background.emptyState
        ∧ (Background.resetEncryption newKey now
            (Background.runOps (Background.loadState s).1 ops)).stateKey
            = Background.StoredPayload.ctPayload (some (Codec.encodeStateV2 Background.emptyState))
        ∧ (Background.resetEncryption newKey now
            (Background.runOps (Background.loadState s).1 ops)).backups = []
        ∧ (Background.resetEncryption newKey now
            (Background.runOps (Background.loadState s).1 ops)).enc.cryptoKey = some newKey) := by
  have hload1 : (Background.loadState s).1.stateCorruptionReason = some "corrupt-state" := by
    unfold Background.loadState
    simp [hlock, hcache, hkey]
  have hload2 : (Background.loadState s).1.stateKey = Background.StoredPayload.ctPayload none := by
    unfold Background.loadState
    simp [hlock, hcache, hkey]
  have hload3 : (Background.loadState s).1.encryptionEnabled = true := by
    unfold Background.loadState
    simp [hlock, hcache, hkey, henc]
  refine ⟨⟨hload1, ?_⟩, ?_, ?_⟩
  · unfold Background.stateIsWritable
    rw [Background.stateWriteBlockedReason_corrupt _ hload1]
    rfl
  · intro ops
    obtain ⟨g1, g2, _⟩ := Background.corrupt_sticky_ops _ hload1 hload2 ops
    refine ⟨Background.stateWriteBlockedReason_corrupt _ g1, ?_, g2, ?_⟩
    · unfold Background.stateIsWritable
      rw [Background.stateWriteBlockedReason_corrupt _ g1]
      rfl
    · intro state
      unfold Background.saveStateInternal
      rw [Background.stateWriteBlockedReason_corrupt _ g1]
  · intro newKey now ops
    obtain ⟨g1, g2, g3⟩ := Background.corrupt_sticky_ops _ hload1 hload2 ops
    obtain ⟨r1, r2, r3, r4, r5, r6, _⟩ :=
      Background.resetEncryption_fresh newKey now _ (by rw [g3, hload3])
    exact ⟨r1, r2, r3, r4, r5, r6⟩

/-- Witness for C4 at a concrete unlocked state whose persisted payload
fails to decrypt. -/
theorem loadState_corrupt_sticky_until_reset_witness :
    (((Background.loadState { enc := { cryptoKey := some "k0", encryptionLocked := false, encryptionLockReason := none, syncRecord := none, localRecord := none, cloudBackupSetting := false, iterationsSetting := 150000 }, cachedState := none, stateCorruptionReason := none, encryptionEnabled := true, stateKey := Background.StoredPayload.ctPayload none, backups := [] }).1.stateCorruptionReason = some "corrupt-state"
      ∧ Background.stateIsWritable (Background.loadState { enc := { cryptoKey := some "k0", encryptionLocked := false, encryptionLockReason := none, syncRecord := none, localRecord := none, cloudBackupSetting := false, iterationsSetting := 150000 }, cachedState := none, stateCorruptionReason := none, encryptionEnabled := true, stateKey := Background.StoredPayload.ctPayload none, backups := [] }).1 = false)
    ∧ (∀ ops : List Background.StoreOp,
        Background.stateWriteBlockedReason
            (Background.runOps (Background.loadState { enc := { cryptoKey := some "k0", encryptionLocked := false, encryptionLockReason := none, syncRecord := none, localRecord := none, cloudBackupSetting := false, iterationsSetting := 150000 }, cachedState := none, stateCorruptionReason := none, encryptionEnabled := true, stateKey := Background.StoredPayload.ctPayload none, backups := [] }).1 ops) = some "corrupt-state"
        ∧ Background.stateIsWritable (Background.runOps (Background.loadState { enc := { cryptoKey := some "k0", encryptionLocked := false, encryptionLockReason := none, syncRecord := none, localRecord := none, cloudBackupSetting := false, iterationsSetting := 150000 }, cachedState := none, stateCorruptionReason := none, encryptionEnabled := true, stateKey := Background.StoredPayload.ctPayload none, backups := [] }).1 ops) = false
        ∧ (Background.runOps (Background.loadState { enc := { cryptoKey := some "k0", encryptionLocked := false, encryptionLockReason := none, syncRecord := none, localRecord := none, cloudBackupSetting := false, iterationsSetting := 150000 }, cachedState := none, stateCorruptionReason := none, encryptionEnabled := true, stateKey := Background.StoredPayload.ctPayload none, backups := [] }).1 ops).stateKey
            = Background.StoredPayload.ctPayload none
        ∧ ∀ state, Background.saveStateInternal
              (Background.runOps (Background.loadState { enc := { cryptoKey := some "k0", encryptionLocked := false, encryptionLockReason := none, syncRecord := none, localRecord := none, cloudBackupSetting := false, iterationsSetting := 150000 }, cachedState := none, stateCorruptionReason := none, encryptionEnabled := true, stateKey := Background.StoredPayload.ctPayload none, backups := [] }).1 ops) state
            = (Background.runOps (Background.loadState { enc := { cryptoKey := some "k0", encryptionLocked := false, encryptionLockReason := none, syncRecord := none, localRecord := none, cloudBackupSetting := false, iterationsSetting := 150000 }, cachedState := none, stateCorruptionReason := none, encryptionEnabled := true, stateKey := Background.StoredPayload.ctPayload none, backups := [] }).1 ops, some "corrupt-state"))
    ∧ (∀ (newKey : String) (now : Int) (ops : List Background.StoreOp),
        (Background.resetEncryption newKey now
            (Background.runOps (Background.loadState { enc := { cryptoKey := some "k0", encryptionLocked := false, encryptionLockReason := none, syncRecord := none, localRecord := none, cloudBackupSetting := false, iterationsSetting := 150000 }, cachedState := none, stateCorruptionReason := none, encryptionEnabled := true, stateKey := Background.StoredPayload.ctPayload none, backups := [] }).1 ops)).stateCorruptionReason = none
        ∧ Background.stateIsWritable (Background.resetEncryption newKey now
            (Background.runOps (Background.loadState { enc := { cryptoKey := some "k0", encryptionLocked := false, encryptionLockReason := none, syncRecord := none, localRecord := none, cloudBackupSetting := false, iterationsSetting := 150000 }, cachedState := none, stateCorruptionReason := none, encryptionEnabled := true, stateKey := Background.StoredPayload.ctPayload none, backups := [] }).1 ops)) = true
        ∧ (Background.resetEncryption newKey now
            (Background.runOps (Background.loadState { enc := { cryptoKey := some "k0", encryptionLocked := false, encryptionLockReason := none, syncRecord := none, localRecord := none, cloudBackupSetting := false, iterationsSetting := 150000 }, cachedState := none, stateCorruptionReason := none, encryptionEnabled := true, stateKey := Background.StoredPayload.ctPayload none, backups := [] }).1 ops)).cachedState
            = some Background.emptyState
        ∧ (Background.resetEncryption newKey now
            (Background.runOps (Background.loadState { enc := { cryptoKey := some "k0", encryptionLocked := false, encryptionLockReason := none, syncRecord := none, localRecord := none, cloudBackupSetting := false, iterationsSetting := 150000 }, cachedState := none, stateCorruptionReason := none, encryptionEnabled := true, stateKey := Background.StoredPayload.ctPayload none, backups := [] }).1 ops)).stateKey
            = Background.StoredPayload.ctPayload (some (Codec.encodeStateV2 Background.emptyState))
        ∧ (Background.resetEncryption newKey now
            (Background.runOps (Background.loadState { enc := { cryptoKey := some "k0", encryptionLocked := false, encryptionLockReason := none, syncRecord := none, localRecord := none, cloudBackupSetting := false, iterationsSetting := 150000 }, cachedState := none, stateCorruptionReason := none, encryptionEnabled := true, stateKey := Background.StoredPayload.ctPayload none, backups := [] }).1 ops)).backups = []
        ∧ (Background.resetEncryption newKey now
            (Background.runOps (Background.loadState { enc := { cryptoKey := some "k0", encryptionLocked := false, encryptionLockReason := none, syncRecord := none, localRecord := none, cloudBackupSetting := false, iterationsSetting := 150000 }, cachedState := none, stateCorruptionReason := none, encryptionEnabled := true, stateKey := Background.StoredPayload.ctPayload none, backups := [] }).1 ops)).enc.cryptoKey = some newKey)) :=
  loadState_corrupt_sticky_until_reset
    { enc := { cryptoKey := some "k0", encryptionLocked := false, encryptionLockReason := none, syncRecord := none, localRecord := none, cloudBackupSetting := false, iterationsSetting := 150000 }, cachedState := none, stateCorruptionReason := none, encryptionEnabled := true, stateKey := Background.StoredPayload.ctPayload none, backups := [] }
    rfl rfl rfl rfl

/-- Counterexample to C7 as stated: at a corrupt (blocked) state, a call
to `saveState` does not return a structured result - it throws (the
second component of the embedding is the raised error), carrying the
blocking reason only as the error message. -/
theorem saveState_blocked_result_counterexample :
    Background.stateWriteBlockedReason
        { enc := { cryptoKey := some "k0", encryptionLocked := false,
                   encryptionLockReason := none, syncRecord := none, localRecord := none,
                   cloudBackupSetting := false, iterationsSetting := 150000 },
          cachedState := some Background.emptyState,
          stateCorruptionReason := some "corrupt-state", encryptionEnabled := true,
          stateKey := Background.StoredPayload.ctPayload none, backups := [] }
      = some "corrupt-state"
    ∧ (Background.saveState
        { enc := { cryptoKey := some "k0", encryptionLocked := false,
                   encryptionLockReason := none, syncRecord := none, localRecord := none,
                   cloudBackupSetting := false, iterationsSetting := 150000 },
          cachedState := some Background.emptyState,
          stateCorruptionReason := some "corrupt-state", encryptionEnabled := true,
          stateKey := Background.StoredPayload.ctPayload none, backups := [] }
        Background.emptyState).2
      = some "corrupt-state" := by
  constructor
  · rfl
  · rfl

/-- C7 as amended: when the state is locked or corrupt, `saveState` /
`saveStateInternal` raise an exception whose message is the blocking
reason and perform no storage write; the structured blocked-write result
is produced by callers, which check `stateIsWritable` before writing and
return `lockedMutationResponse` - an `{ok:false, locked:true, reason}`
object carrying the blocking reason. -/
theorem saveState_blocked_throws
    (s : Background.Bg) (state : JVal) (r : String)
    (h : Background.stateWriteBlockedReason s = some r) :
    Background.saveStateInternal s state = (s, some r)
    ∧ (Background.saveState s state).2 = some r
    ∧ (Background.saveState s state).1.stateKey = s.stateKey
    ∧ Background.stateIsWritable s = false
    ∧ Background.lockedMutationResponse s false
      = JVal.obj [("ok", JVal.bool false), ("locked", JVal.bool true), ("reason", JVal.str r)] := by
  have hb : Background.stateWriteBlockedReason
      { s with cachedState := some state } = some r := by
    unfold Background.stateWriteBlockedReason Background.stateIsCorrupt
      Background.stateLockReason Background.stateIsLocked at h ⊢
    simpa using h
  refine ⟨?_, ?_, ?_, ?_, ?_⟩
  · unfold Background.saveStateInternal
    rw [h]
  · unfold Background.saveState Background.saveStateInternal
    rw [hb]
  · unfold Background.saveState Background.saveStateInternal
    rw [hb]
  · unfold Background.stateIsWritable
    rw [h]
    rfl
  · unfold Background.lockedMutationResponse
    rw [h]
    rfl

/-- Witness for the amended C7 at the corrupt state of the
counterexample. -/
theorem saveState_blocked_throws_witness :
    Background.saveStateInternal
        { enc := { cryptoKey := some "k0", encryptionLocked := false,
                   encryptionLockReason := none, syncRecord := none, localRecord := none,
                   cloudBackupSetting := false, iterationsSetting := 150000 },
          cachedState := some Background.emptyState,
          stateCorruptionReason := some "corrupt-state", encryptionEnabled := true,
          stateKey := Background.StoredPayload.ctPayload none, backups := [] }
        Background.emptyState
      = ({ enc := { cryptoKey := some "k0", encryptionLocked := false,
                    encryptionLockReason := none, syncRecord := none, localRecord := none,
                    cloudBackupSetting := false, iterationsSetting := 150000 },
           cachedState := some Background.emptyState,
           stateCorruptionReason := some "corrupt-state", encryptionEnabled := true,
           stateKey := Background.StoredPayload.ctPayload none, backups := [] },
         some "corrupt-state")
    ∧ (Background.saveState
        { enc := { cryptoKey := some "k0", encryptionLocked := false,
                   encryptionLockReason := none, syncRecord := none, localRecord := none,
                   cloudBackupSetting := false, iterationsSetting := 150000 },
          cachedState := some Background.emptyState,
          stateCorruptionReason := some "corrupt-state", encryptionEnabled := true,
          stateKey := Background.StoredPayload.ctPayload none, backups := [] }
        Background.emptyState).2 = some "corrupt-state"
    ∧ (Background.saveState
        { enc := { cryptoKey := some "k0", encryptionLocked := false,
                   encryptionLockReason := none, syncRecord := none, localRecord := none,
                   cloudBackupSetting := false, iterationsSetting := 150000 },
          cachedState := some Background.emptyState,
          stateCorruptionReason := some "corrupt-state", encryptionEnabled := true,
          stateKey := Background.StoredPayload.ctPayload none, backups := [] }
        Background.emptyState).1.stateKey
      = ({ enc := { cryptoKey := some "k0", encryptionLocked := false,
                    encryptionLockReason := none, syncRecord := none, localRecord := none,
                    cloudBackupSetting := false, iterationsSetting := 150000 },
           cachedState := some Background.emptyState,
           stateCorruptionReason := some "corrupt-state", encryptionEnabled := true,
           stateKey := Background.StoredPayload.ctPayload none,
           backups := [] } : Background.Bg).stateKey
    ∧ Background.stateIsWritable
        { enc := { cryptoKey := some "k0", encryptionLocked := false,
                   encryptionLockReason := none, syncRecord := none, localRecord := none,
                   cloudBackupSetting := false, iterationsSetting := 150000 },
          cachedState := some Background.emptyState,
          stateCorruptionReason := some "corrupt-state", encryptionEnabled := true,
          stateKey := Background.StoredPayload.ctPayload none, backups := [] } = false
    ∧ Background.lockedMutationResponse
        { enc := { cryptoKey := some "k0", encryptionLocked := false,
                   encryptionLockReason := none, syncRecord := none, localRecord := none,
                   cloudBackupSetting := false, iterationsSetting := 150000 },
          cachedState := some Background.emptyState,
          stateCorruptionReason := some "corrupt-state", encryptionEnabled := true,
          stateKey := Background.StoredPayload.ctPayload none, backups := [] } false
      = JVal.obj [("ok", JVal.bool false), ("locked", JVal.bool true),
                  ("reason", JVal.str "corrupt-state")] :=
  saveState_blocked_throws
    { enc := { cryptoKey := some "k0", encryptionLocked := false,
               encryptionLockReason := none, syncRecord := none, localRecord := none,
               cloudBackupSetting := false, iterationsSetting := 150000 },
      cachedState := some Background.emptyState,
      stateCorruptionReason := some "corrupt-state", encryptionEnabled := true,
      stateKey := Background.StoredPayload.ctPayload none, backups := [] }
    Background.emptyState "corrupt-state" rfl

/-- C5: cloud-backup eligibility. When the loaded key record is not
passkey-wrapped (or there is no record), requesting cloud backup returns
`passkey-required` and changes nothing - in particular the persisted
cloud-backup preference and the cloud-synced namespace are untouched;
and `persistKeyRecord` writes the record to the cloud-synced namespace
exactly when it is both cloud-enabled and passkey-wrapped (removing it
otherwise), so every record it syncs is passkey-wrapped. -/
theorem setCloudBackupEnabled_passkey_required
    (st : Encryption.EncState) (now : Int)
    (h : (Encryption.loadKeyRecord true st).all (fun r => !r.usingPasskey) = true) :
    Encryption.setCloudBackupEnabled true now st
      = (st, Encryption.CloudBackupRes.passkeyRequired)
    ∧ (∀ (record : Encryption.KeyRecord) (st' : Encryption.EncState),
        (Encryption.persistKeyRecord record st').1.syncRecord
          = if record.cloudBackupEnabled && record.usingPasskey then some record else none)
    ∧ (∀ (record : Encryption.KeyRecord) (st' : Encryption.EncState)
          (r' : Encryption.KeyRecord),
        (Encryption.persistKeyRecord record st').1.syncRecord = some r' →
          r'.usingPasskey = true) := by
  refine ⟨?_, ?_, ?_⟩
  · unfold Encryption.setCloudBackupEnabled
    cases hrec : Encryption.loadKeyRecord true st with
    | some r =>
        rw [hrec] at h
        simp only [Option.all_some] at h
        simp [hrec, h]
    | none =>
        cases hck : st.cryptoKey with
        | some b64 => simp [hrec, hck]
        | none => simp [hrec, hck]
  · intro record st'
    unfold Encryption.persistKeyRecord
    by_cases hel : record.cloudBackupEnabled && record.usingPasskey
    · simp [hel]
    · simp [hel]
  · intro record st' r' hsync
    unfold Encryption.persistKeyRecord at hsync
    by_cases hel : record.cloudBackupEnabled && record.usingPasskey
    · simp only [hel, if_pos] at hsync
      simp only [Option.some.injEq] at hsync
      rw [← hsync]
      exact (Bool.and_eq_true _ _).mp hel |>.2
    · simp [hel] at hsync

/-- Witness for C5 at a state whose only key record is a plaintext
(non-passkey) local record. -/
theorem setCloudBackupEnabled_passkey_required_witness :
    Encryption.setCloudBackupEnabled true 5000
        { cryptoKey := some "k0", encryptionLocked := false, encryptionLockReason := none,
          syncRecord := none,
          localRecord := some { usingPasskey := false, dataKey := some "k0",
                                encryptedKey := none, keySalt := none, keyIV := none,
                                iterations := none, cloudBackupEnabled := false,
                                keyVersion := 1, updatedAt := 0 },
          cloudBackupSetting := false, iterationsSetting := 150000 }
      = ({ cryptoKey := some "k0", encryptionLocked := false, encryptionLockReason := none,
           syncRecord := none,
           localRecord := some { usingPasskey := false, dataKey := some "k0",
                                 encryptedKey := none, keySalt := none, keyIV := none,
                                 iterations := none, cloudBackupEnabled := false,
                                 keyVersion := 1, updatedAt := 0 },
           cloudBackupSetting := false, iterationsSetting := 150000 },
         Encryption.CloudBackupRes.passkeyRequired)
    ∧ (∀ (record : Encryption.KeyRecord) (st' : Encryption.EncState),
        (Encryption.persistKeyRecord record st').1.syncRecord
          = if record.cloudBackupEnabled && record.usingPasskey then some record else none)
    ∧ (∀ (record : Encryption.KeyRecord) (st' : Encryption.EncState)
          (r' : Encryption.KeyRecord),
        (Encryption.persistKeyRecord record st').1.syncRecord = some r' →
          r'.usingPasskey = true) :=
  setCloudBackupEnabled_passkey_required
    { cryptoKey := some "k0", encryptionLocked := false, encryptionLockReason := none,
      syncRecord := none,
      localRecord := some { usingPasskey := false, dataKey := some "k0",
                            encryptedKey := none, keySalt := none, keyIV := none,
                            iterations := none, cloudBackupEnabled := false,
                            keyVersion := 1, updatedAt := 0 },
      cloudBackupSetting := false, iterationsSetting := 150000 }
    5000 (by decide)

/-- Counterexample to C6 as stated: `unwrapDataKey` passes
`enforceFloor = false` to `deriveWrappingKey`, so a persisted record
whose stored iteration count is 1000 (far below the 150000 floor) is
unwrapped with a key derived at exactly 1000 iterations - the unwrap
succeeds against a ciphertext wrapped at 1000 iterations, and the
derivation the claim demands (clamped up to the floor) is a different
wrapping key. -/
theorem unwrapDataKey_floor_counterexample :
    Encryption.unwrapDataKey "pw"
        (some { usingPasskey := true, dataKey := none, encryptedKey := some { key := { passkey := "pw", salt := List.replicate 16 0, iterations := 1000 }, iv := List.replicate 12 0, plain := "dk" }, keySalt := some (List.replicate 16 0), keyIV := some (List.replicate 12 0), iterations := some 1000, cloudBackupEnabled := false, keyVersion := 1, updatedAt := 0 })
        { cryptoKey := none, encryptionLocked := true, encryptionLockReason := some "passkey-required", syncRecord := none, localRecord := none, cloudBackupSetting := false, iterationsSetting := 150000 }
      = Except.ok
          ({ used := { passkey := "pw", salt := List.replicate 16 0, iterations := 1000 }, dataKey := "dk" },
           { cryptoKey := some "dk", encryptionLocked := false, encryptionLockReason := none, syncRecord := none, localRecord := none, cloudBackupSetting := false, iterationsSetting := 150000 })
    ∧ (1000 : Int) < Encryption.MIN_ITERATIONS
    ∧ Encryption.deriveWrappingKey "pw" (List.replicate 16 0) 1000 true
        ≠ Encryption.deriveWrappingKey "pw" (List.replicate 16 0) 1000 false := by
  refine ⟨rfl, by decide, by decide⟩

/-- C6 as amended: the unwrap/verification path derives the wrapping key
from the stored iteration count as-is (no floor clamp - clamping would
make old records undecryptable), falling back to the default only when
the stored count is absent or zero; the 150000-iteration floor is
instead enforced when deriving a wrapping key for wrapping
(`wrapDataKey`). -/
theorem unwrapDataKey_uses_stored_iterations
    (passkey : String) (r : Encryption.KeyRecord) (st : Encryption.EncState) (n : Int)
    (hiter : r.iterations = some n) (hn : n ≠ 0) :
    (∀ (out : Encryption.UnwrapOutcome) (st' : Encryption.EncState),
        Encryption.unwrapDataKey passkey (some r) st = Except.ok (out, st') →
          out.used = Encryption.deriveWrappingKey passkey (r.keySalt.getD []) n false
          ∧ out.used.iterations = n)
    ∧ (∀ (salt iv : List Nat) (w : Encryption.WrappedKey),
        Encryption.wrapDataKey passkey salt iv st = Except.ok w →
          Encryption.MIN_ITERATIONS ≤ w.encryptedKey.key.iterations) := by
  have hiter' : Encryption.jsOrIterations (r.iterations.getD 0)
      Encryption.defaultIterations = n := by
    rw [hiter]
    simp [Encryption.jsOrIterations, hn]
  constructor
  · intro out st' hok
    unfold Encryption.unwrapDataKey at hok
    by_cases hv : Encryption.isValidKeyRecord (some r) = true
    · rw [if_neg (by simp [hv])] at hok
      cases hE : r.encryptedKey with
      | none => simp [hE] at hok
      | some c =>
          simp only [hE] at hok
          by_cases hmatch : c.key = Encryption.deriveWrappingKey passkey (r.keySalt.getD [])
              (Encryption.jsOrIterations (r.iterations.getD 0) Encryption.defaultIterations) false
              ∧ c.iv = r.keyIV.getD []
          · rw [if_pos hmatch] at hok
            simp only [Except.ok.injEq, Prod.mk.injEq] at hok
            obtain ⟨hout, -⟩ := hok
            rw [← hout, hiter']
            refine ⟨rfl, ?_⟩
            simp [Encryption.deriveWrappingKey, Encryption.jsOrIterations, hn]
          · rw [if_neg hmatch] at hok
            exact Except.noConfusion hok
    · rw [if_pos (by simp [hv])] at hok
      exact Except.noConfusion hok
  · intro salt iv w hok
    unfold Encryption.wrapDataKey at hok
    cases hck : st.cryptoKey with
    | none => simp [hck] at hok
    | some raw =>
        simp only [hck, Except.ok.injEq] at hok
        rw [← hok]
        simp [Encryption.deriveWrappingKey]

/-- Witness for the amended C6 at the counterexample record (stored
count 1000): the unwrap derivation runs at 1000 iterations as-is, and
any wrap derivation is clamped to at least the floor. -/
theorem unwrapDataKey_uses_stored_iterations_witness :
    (∀ (out : Encryption.UnwrapOutcome) (st' : Encryption.EncState),
        Encryption.unwrapDataKey "pw"
            (some { usingPasskey := true, dataKey := none, encryptedKey := some { key := { passkey := "pw", salt := List.replicate 16 0, iterations := 1000 }, iv := List.replicate 12 0, plain := "dk" }, keySalt := some (List.replicate 16 0), keyIV := some (List.replicate 12 0), iterations := some 1000, cloudBackupEnabled := false, keyVersion := 1, updatedAt := 0 })
            { cryptoKey := none, encryptionLocked := true, encryptionLockReason := some "passkey-required", syncRecord := none, localRecord := none, cloudBackupSetting := false, iterationsSetting := 150000 }
          = Except.ok (out, st') →
          out.used = Encryption.deriveWrappingKey "pw"
              (({ usingPasskey := true, dataKey := none, encryptedKey := some { key := { passkey := "pw", salt := List.replicate 16 0, iterations := 1000 }, iv := List.replicate 12 0, plain := "dk" }, keySalt := some (List.replicate 16 0), keyIV := some (List.replicate 12 0), iterations := some 1000, cloudBackupEnabled := false, keyVersion := 1, updatedAt := 0 } : Encryption.KeyRecord).keySalt.getD [])
              1000 false
          ∧ out.used.iterations = 1000)
    ∧ (∀ (salt iv : List Nat) (w : Encryption.WrappedKey),
        Encryption.wrapDataKey "pw" salt iv
            { cryptoKey := none, encryptionLocked := true, encryptionLockReason := some "passkey-required", syncRecord := none, localRecord := none, cloudBackupSetting := false, iterationsSetting := 150000 }
          = Except.ok w →
          Encryption.MIN_ITERATIONS ≤ w.encryptedKey.key.iterations) :=
  unwrapDataKey_uses_stored_iterations "pw"
    { usingPasskey := true, dataKey := none, encryptedKey := some { key := { passkey := "pw", salt := List.replicate 16 0, iterations := 1000 }, iv := List.replicate 12 0, plain := "dk" }, keySalt := some (List.replicate 16 0), keyIV := some (List.replicate 12 0), iterations := some 1000, cloudBackupEnabled := false, keyVersion := 1, updatedAt := 0 }
    { cryptoKey := none, encryptionLocked := true, encryptionLockReason := some "passkey-required", syncRecord := none, localRecord := none, cloudBackupSetting := false, iterationsSetting := 150000 }
    1000 rfl (by decide)

/-- C3: mutual exclusion and FIFO ordering of the state lock. In every
system reachable under any interleaving of N mutators chained through
`withStateLock` (tasks indexed in lock-request order, throwing callbacks
included): at most one callback body is running, so no two bodies
interleave; a callback that has started (or finished) implies every
earlier-requested one has finished - callbacks run in request order; and
whenever no transition is enabled, every task is done (the lock was
released on every exit path, including throws) and the shared state is
the mutators applied serially in request order - no lost updates. -/
theorem withStateLock_mutual_exclusion_fifo (S : Type)
    (prog : List (StateLock.LockTask S)) (s0 : S) (sys : StateLock.LockSys S)
    (h : StateLock.lockReachable prog s0 sys) :
    (∀ (i j : Nat) (ri rj : List (S → S)),
        sys.tasks.get? i = some (StateLock.TStatus.running ri) →
        sys.tasks.get? j = some (StateLock.TStatus.running rj) → i = j)
    ∧ (∀ (i j : Nat) (st : StateLock.TStatus S), i < j →
        sys.tasks.get? j = some st → st ≠ StateLock.TStatus.waiting →
        sys.tasks.get? i = some StateLock.TStatus.done)
    ∧ ((¬∃ sys', StateLock.withStateLockStep prog sys sys') →
        (∀ i, i < prog.length → sys.tasks.get? i = some StateLock.TStatus.done)
        ∧ sys.shared = StateLock.serialRun prog s0) := by
  obtain ⟨k, rest, htasks, hlen, hrest⟩ := StateLock.lockInv_of_reachable h
  refine ⟨?_, ?_, ?_⟩
  · intro i j ri rj hi hj
    obtain ⟨hki, hrgi⟩ := StateLock.status_at htasks hi (by intro hh; cases hh)
    obtain ⟨hkj, hrgj⟩ := StateLock.status_at htasks hj (by intro hh; cases hh)
    cases rest with
    | nil => simp at hrgi
    | cons st tail =>
        obtain ⟨htail, hst⟩ := hrest
        rcases StateLock.rest_lookup htail hrgi with ⟨h0i, hxi⟩ | hxi
        · rcases StateLock.rest_lookup htail hrgj with ⟨h0j, hxj⟩ | hxj
          · omega
          · exact absurd hxj (by intro hh; cases hh)
        · exact absurd hxi (by intro hh; cases hh)
  · intro i j st' hij hjs hws
    have hjk : j ≤ k := by
      by_contra hgt
      rw [htasks, StateLock.replGetGe StateLock.TStatus.done _ (show k ≤ j by omega)] at hjs
      cases rest with
      | nil => simp at hjs
      | cons st tail =>
          obtain ⟨htail, hst⟩ := hrest
          rcases StateLock.rest_lookup htail hjs with ⟨h0, hx⟩ | hx
          · omega
          · exact hws hx
    rw [htasks]
    exact StateLock.replGetLt _ _ (by omega)
  · intro hstuck
    cases rest with
    | cons st tail =>
        exfalso
        obtain ⟨htail, hst⟩ := hrest
        have hklen : k < prog.length := by
          simp only [List.length_cons] at hlen
          omega
        obtain ⟨t, hp⟩ : ∃ t, prog.get? k = some t := by
          cases hpk : prog.get? k with
          | none =>
              rw [List.get?_eq_getElem?] at hpk
              have := List.getElem?_eq_none_iff.mp hpk
              omega
          | some t => exact ⟨t, rfl⟩
        have hgk : sys.tasks.get? k = some st := by
          rw [htasks, StateLock.replGetGe _ _ (le_refl k)]
          simp
        cases st with
        | waiting =>
            refine hstuck ⟨_, StateLock.withStateLockStep.wake sys k t hgk hp ?_⟩
            cases k with
            | zero => exact Or.inl rfl
            | succ m =>
                refine Or.inr ?_
                rw [htasks]
                exact StateLock.replGetLt _ _ (by omega)
        | running rem =>
            cases rem with
            | nil => exact hstuck ⟨_, StateLock.withStateLockStep.finish sys k hgk⟩
            | cons f rs => exact hstuck ⟨_, StateLock.withStateLockStep.run sys k f rs hgk⟩
        | done => exact hst
    | nil =>
        refine ⟨?_, hrest⟩
        intro i hi
        rw [htasks]
        have hkl : k = prog.length := by simpa using hlen
        exact StateLock.replGetLt _ _ (by omega)

/-- Witness for C3 at a concrete two-mutator program (the second
callback throws) from its initial system. -/
theorem withStateLock_mutual_exclusion_fifo_witness :
    (∀ (i j : Nat) (ri rj : List (Nat → Nat)),
        (StateLock.initSys
            [{ steps := [fun n => n + 1], throws := false },
             { steps := [fun n => 2 * n], throws := true }] 3).tasks.get? i
          = some (StateLock.TStatus.running ri) →
        (StateLock.initSys
            [{ steps := [fun n => n + 1], throws := false },
             { steps := [fun n => 2 * n], throws := true }] 3).tasks.get? j
          = some (StateLock.TStatus.running rj) → i = j)
    ∧ (∀ (i j : Nat) (st : StateLock.TStatus Nat), i < j →
        (StateLock.initSys
            [{ steps := [fun n => n + 1], throws := false },
             { steps := [fun n => 2 * n], throws := true }] 3).tasks.get? j = some st →
        st ≠ StateLock.TStatus.waiting →
        (StateLock.initSys
            [{ steps := [fun n => n + 1], throws := false },
             { steps := [fun n => 2 * n], throws := true }] 3).tasks.get? i
          = some StateLock.TStatus.done)
    ∧ ((¬∃ sys', StateLock.withStateLockStep
          [{ steps := [fun n => n + 1], throws := false },
           { steps := [fun n => 2 * n], throws := true }]
          (StateLock.initSys
            [{ steps := [fun n => n + 1], throws := false },
             { steps := [fun n => 2 * n], throws := true }] 3) sys') →
        (∀ i, i < (List.length
            [({ steps := [fun n => n + 1], throws := false } : StateLock.LockTask Nat),
             { steps := [fun n => 2 * n], throws := true }]) →
          (StateLock.initSys
            [{ steps := [fun n => n + 1], throws := false },
             { steps := [fun n => 2 * n], throws := true }] 3).tasks.get? i
            = some StateLock.TStatus.done)
        ∧ (StateLock.initSys
            [{ steps := [fun n => n + 1], throws := false },
             { steps := [fun n => 2 * n], throws := true }] 3).shared
          = StateLock.serialRun
              [{ steps := [fun n => n + 1], throws := false },
               { steps := [fun n => 2 * n], throws := true }] 3) :=
  withStateLock_mutual_exclusion_fifo Nat
    [{ steps := [fun n => n + 1], throws := false },
     { steps := [fun n => 2 * n], throws := true }] 3
    (StateLock.initSys
      [{ steps := [fun n => n + 1], throws := false },
       { steps := [fun n => 2 * n], throws := true }] 3)
    StateLock.lockReachable.init

theorem getField_obj_cons_self (k : String) (v : JVal) (rest : List (String × JVal)) :
    JVal.getField (JVal.obj ((k, v) :: rest)) k = v := by
  simp [JVal.getField, List.find?]

theorem getField_obj_cons_ne (k k' : String) (v : JVal) (rest : List (String × JVal))
    (h : ¬k' = k) :
    JVal.getField (JVal.obj ((k', v) :: rest)) k = JVal.getField (JVal.obj rest) k := by
  simp [JVal.getField, List.find?, h]

theorem getField_obj_nil (k : String) : JVal.getField (JVal.obj []) k = JVal.undef := by
  simp [JVal.getField, List.find?]

namespace Codec

theorem strOrElse_is_str (v : JVal) (d : String) : ∃ s, strOrElse v d = JVal.str s := by
  unfold strOrElse
  cases v <;> exact ⟨_, rfl⟩

theorem decodeMethod_cases (v : JVal) (fb : String) (hfb : fb = "discard" ∨ fb = "page") :
    decodeMethod v fb = "discard" ∨ decodeMethod v fb = "page" := by
  unfold decodeMethod
  cases v with
  | num q =>
      by_cases h0 : q = METHOD_DISCARD
      · simp [h0]
      · by_cases h1 : q = METHOD_PAGE
        · simp [h0, h1, METHOD_DISCARD, METHOD_PAGE]
        · simpa [h0, h1] using hfb
  | str s =>
      by_cases h0 : s = "discard"
      · simp [h0]
      · by_cases h1 : s = "page"
        · simp [h0, h1]
        · simpa [h0, h1] using hfb
  | undef => exact hfb
  | null => exact hfb
  | bool b => exact hfb
  | nan => exact hfb
  | arr xs => exact hfb
  | obj fs => exact hfb

theorem normalizeEntry_wf (entry e : JVal) (h : normalizeEntry entry = some e) :
    wfEntry e := by
  unfold normalizeEntry at h
  by_cases hobj : entry.isObjectLike = true
  · rw [if_neg (by simp [hobj])] at h
    cases hurl : entry.getField "url" with
    | str url =>
        simp only [hurl] at h
        by_cases hurl0 : url = ""
        · rw [if_pos hurl0] at h
          cases h
        · rw [if_neg hurl0] at h
          obtain ⟨t1, ht1⟩ := strOrElse_is_str (entry.getField "title") ""
          obtain ⟨t2, ht2⟩ := strOrElse_is_str (entry.getField "reason") ""
          obtain ⟨t3, ht3⟩ := strOrElse_is_str (entry.getField "favIconUrl") ""
          obtain ⟨t4, ht4⟩ := strOrElse_is_str (entry.getField "token") ""
          rcases decodeMethod_cases (entry.getField "method")
              (if (entry.getField "token").truthy ∨ (entry.getField "tokenIssuedAt").truthy
                then "page" else "discard")
              (by by_cases hc : (entry.getField "token").truthy = true
                    ∨ (entry.getField "tokenIssuedAt").truthy = true
                  · rw [if_pos hc]; exact Or.inr rfl
                  · rw [if_neg hc]; exact Or.inl rfl) with hm | hm
          · rw [hm] at h
            rw [if_neg (by simp)] at h
            cases h
            simp only [ht1, ht2, ht3]
            refine ⟨⟨url, ?_, hurl0⟩, Or.inl ⟨?_, ?_, ?_, ?_⟩⟩ <;>
              simp [getField_obj_cons_self, getField_obj_cons_ne, getField_obj_nil, hm]
          · rw [hm] at h
            rw [if_pos rfl] at h
            cases h
            simp only [ht1, ht2, ht3, ht4]
            refine ⟨⟨url, ?_, hurl0⟩, Or.inr ⟨?_, ?_, ?_, ?_⟩⟩ <;>
              simp [getField_obj_cons_self, getField_obj_cons_ne, getField_obj_nil, hm]
    | undef => simp [hurl] at h
    | null => simp [hurl] at h
    | bool b => simp [hurl] at h
    | num q => simp [hurl] at h
    | nan => simp [hurl] at h
    | arr xs => simp [hurl] at h
    | obj fs => simp [hurl] at h
  · rw [if_pos (by simp [hobj])] at h
    cases h

end Codec

namespace Codec

theorem decodeTuple_wf (tuple : List JVal) (k : String) (e : JVal)
    (h : decodeTuple tuple = some (k, e)) : wfEntry e := by
  unfold decodeTuple at h
  repeat' split at h
  any_goals cases h
  all_goals dsimp only [] at h
  all_goals repeat' split at h
  any_goals cases h
  all_goals (
    obtain ⟨t1, ht1⟩ := strOrElse_is_str (tuple.getD 2 JVal.undef) ""
    obtain ⟨t2, ht2⟩ := strOrElse_is_str (tuple.getD 6 JVal.undef) ""
    obtain ⟨t3, ht3⟩ := strOrElse_is_str (tuple.getD 10 JVal.undef) ""
    obtain ⟨t4, ht4⟩ := strOrElse_is_str (tuple.getD 7 JVal.undef) ""
    simp only [ht1, ht2, ht3, ht4]
    rename_i hurl0 hmeth
    first
      | (refine ⟨⟨_, ?_, hurl0⟩, Or.inr ⟨?_, ?_, ?_, ?_⟩⟩ <;>
          simp [getField_obj_cons_self, getField_obj_cons_ne, getField_obj_nil] <;>
          simpa using hmeth)
      | (rcases decodeMethod_cases (tuple.getD 5 JVal.undef) "page" (Or.inr rfl) with hm | hm
         · refine ⟨⟨_, ?_, hurl0⟩, Or.inl ⟨?_, ?_, ?_, ?_⟩⟩ <;>
             simp [getField_obj_cons_self, getField_obj_cons_ne, getField_obj_nil] <;>
             simpa using hm
         · exact absurd hm hmeth))

theorem setKey_preserves {P : JVal → Prop} {l : List (String × JVal)} {k : String} {v : JVal}
    (hl : ∀ p ∈ l, P p.2) (hv : P v) : ∀ p ∈ setKey l k v, P p.2 := by
  unfold setKey
  split
  · intro p hp
    obtain ⟨q, hq, hqe⟩ := List.mem_map.mp hp
    by_cases hqk : q.1 = k
    · rw [if_pos hqk] at hqe
      rw [← hqe]
      exact hv
    · rw [if_neg hqk] at hqe
      rw [← hqe]
      exact hl q hq
  · intro p hp
    rcases List.mem_append.mp hp with hmem | hmem
    · exact hl p hmem
    · rw [List.mem_singleton.mp hmem]
      exact hv

theorem foldl_preserve {α : Type} {P : JVal → Prop}
    (f : List (String × JVal) → α → List (String × JVal))
    (hf : ∀ acc a, (∀ p ∈ acc, P p.2) → ∀ p ∈ f acc a, P p.2) :
    ∀ (l : List α) (acc : List (String × JVal)),
      (∀ p ∈ acc, P p.2) → ∀ p ∈ l.foldl f acc, P p.2 := by
  intro l
  induction l with
  | nil => intro acc h; exact h
  | cons a rest ih =>
      intro acc h
      rw [List.foldl_cons]
      exact ih _ (hf acc a h)

theorem decodeCompactFold_preserves (acc : List (String × JVal)) (t : JVal)
    (hacc : ∀ p ∈ acc, wfEntry p.2) : ∀ p ∈ decodeCompactFold acc t, wfEntry p.2 := by
  unfold decodeCompactFold
  cases t with
  | arr l =>
      cases hdt : decodeTuple l with
      | some ke =>
          obtain ⟨k, e⟩ := ke
          simp only [hdt]
          exact setKey_preserves hacc (decodeTuple_wf l k e hdt)
      | none =>
          simp only [hdt]
          exact hacc
  | undef => exact hacc
  | null => exact hacc
  | bool b => exact hacc
  | num q => exact hacc
  | nan => exact hacc
  | str s => exact hacc
  | obj fs => exact hacc

theorem decodeLegacyFold_preserves (acc : List (String × JVal)) (p : String × JVal)
    (hacc : ∀ q ∈ acc, wfEntry q.2) : ∀ q ∈ decodeLegacyFold acc p, wfEntry q.2 := by
  unfold decodeLegacyFold
  cases hne : normalizeEntry p.2 with
  | some e => exact setKey_preserves hacc (normalizeEntry_wf p.2 e hne)
  | none => exact hacc

theorem decodeCompactState_wf (raw : JVal) :
    ∃ l : List (String × JVal),
      decodeCompactState raw = JVal.obj [("suspendedTabs", JVal.obj l)]
      ∧ ∀ p ∈ l, wfEntry p.2 := by
  refine ⟨_, rfl, ?_⟩
  exact foldl_preserve decodeCompactFold decodeCompactFold_preserves _ [] (by simp)

theorem decodeLegacyState_wf (raw : JVal) :
    ∃ l : List (String × JVal),
      decodeLegacyState raw = JVal.obj [("suspendedTabs", JVal.obj l)]
      ∧ ∀ p ∈ l, wfEntry p.2 := by
  unfold decodeLegacyState
  by_cases hs : (raw.getField "suspendedTabs").isObjectLike = true
  · rw [if_neg (by simp [hs])]
    refine ⟨_, rfl, ?_⟩
    exact foldl_preserve decodeLegacyFold decodeLegacyFold_preserves _ [] (by simp)
  · rw [if_pos (by simp [hs])]
    exact ⟨[], rfl, by simp⟩

end Codec

/-- Totality and entry well-formedness of `decodeStateAny`, for every
input value whatsoever: the result is a `{suspendedTabs}` object and
every entry it holds is well-formed. -/
theorem decodeStateAny_shape_wf (raw : JVal) :
    ∃ l : List (String × JVal),
      Codec.decodeStateAny raw = JVal.obj [("suspendedTabs", JVal.obj l)]
      ∧ ∀ p ∈ l, wfEntry p.2 := by
  unfold Codec.decodeStateAny
  by_cases hobj : raw.isObjectLike = true
  · rw [if_neg (by simp [hobj])]
    cases hv : raw.getField "v" with
    | num q =>
        by_cases hq : q = 2
        · simpa [hq] using Codec.decodeCompactState_wf raw
        · simpa [hq] using Codec.decodeLegacyState_wf raw
    | undef => exact Codec.decodeLegacyState_wf raw
    | null => exact Codec.decodeLegacyState_wf raw
    | bool b => exact Codec.decodeLegacyState_wf raw
    | nan => exact Codec.decodeLegacyState_wf raw
    | str s => exact Codec.decodeLegacyState_wf raw
    | arr xs => exact Codec.decodeLegacyState_wf raw
    | obj fs => exact Codec.decodeLegacyState_wf raw
  · rw [if_pos (by simp [hobj])]
    exact ⟨[], rfl, by simp⟩

/-- A compact tuple whose tab id slot coerces to a finite number that
is not a positive integer decodes to nothing. -/
theorem decodeTuple_bad_id (tuple : List JVal) (q : Rat)
    (hq : toFiniteNumber? (tuple.getD 0 JVal.undef) = some q)
    (hbad : ¬(q.den = 1 ∧ 0 < q)) :
    Codec.decodeTuple tuple = none := by
  unfold Codec.decodeTuple
  by_cases hlen : tuple.length < 11
  · rw [if_pos hlen]
  · rw [if_neg hlen]
    simp only [hq]
    rw [if_pos hbad]

/-- A compact tuple whose tab id slot has no finite numeric coercion
decodes to nothing. -/
theorem decodeTuple_no_id (tuple : List JVal)
    (hq : toFiniteNumber? (tuple.getD 0 JVal.undef) = none) :
    Codec.decodeTuple tuple = none := by
  unfold Codec.decodeTuple
  by_cases hlen : tuple.length < 11
  · rw [if_pos hlen]
  · rw [if_neg hlen]
    simp only [hq]

/-- C10: decoder totality and output well-formedness. For every input
value whatsoever, `decodeStateAny` returns a `{suspendedTabs}` object
(it is a total function, so it cannot throw), and every entry it
produces is well-formed: a non-empty string url (an entry with a
missing or empty url is dropped), and the three token fields carried
exactly when the method is `page` (a `discard` entry carries none of
them). Moreover a compact tuple whose tab id is not a positive integer
is silently dropped: whether the id slot coerces to a non-positive or
non-integer finite number, or to nothing finite at all, folding the
tuple into the decoded map leaves the map unchanged, so such a tuple
contributes no entry. -/
theorem decodeStateAny_total_wellformed (raw : JVal) :
    (∃ l : List (String × JVal),
      Codec.decodeStateAny raw = JVal.obj [("suspendedTabs", JVal.obj l)]
      ∧ ∀ p ∈ l, wfEntry p.2)
    ∧ (∀ (acc : List (String × JVal)) (tuple : List JVal) (q : Rat),
        toFiniteNumber? (tuple.getD 0 JVal.undef) = some q → ¬(q.den = 1 ∧ 0 < q) →
        Codec.decodeCompactFold acc (JVal.arr tuple) = acc)
    ∧ (∀ (acc : List (String × JVal)) (tuple : List JVal),
        toFiniteNumber? (tuple.getD 0 JVal.undef) = none →
        Codec.decodeCompactFold acc (JVal.arr tuple) = acc) := by
  refine ⟨decodeStateAny_shape_wf raw, ?_, ?_⟩
  · intro acc tuple q hq hbad
    simp [Codec.decodeCompactFold, decodeTuple_bad_id tuple q hq hbad]
  · intro acc tuple hq
    simp [Codec.decodeCompactFold, decodeTuple_no_id tuple hq]

/-- Witness for C10: the theorem applied at the `null` input, with the
drop conjuncts exercised on a concrete 11-slot tuple whose tab id slot
holds 0 (a non-positive integer) over a non-empty accumulated map, and
on one whose id slot is `undefined` (no finite coercion): both leave
the map unchanged. -/
theorem decodeStateAny_total_wellformed_witness :
    (toFiniteNumber? ((List.replicate 11 (JVal.num 0)).getD 0 JVal.undef) = some 0
      ∧ ¬((0 : Rat).den = 1 ∧ 0 < (0 : Rat))
      ∧ Codec.decodeCompactFold [("1", JVal.null)]
          (JVal.arr (List.replicate 11 (JVal.num 0))) = [("1", JVal.null)])
    ∧ (toFiniteNumber? ((List.replicate 11 JVal.undef).getD 0 JVal.undef) = none
      ∧ Codec.decodeCompactFold [] (JVal.arr (List.replicate 11 JVal.undef)) = []) :=
  ⟨⟨rfl, by decide,
    (decodeStateAny_total_wellformed JVal.null).2.1 [("1", JVal.null)]
      (List.replicate 11 (JVal.num 0)) 0 rfl (by decide)⟩,
   ⟨rfl,
    (decodeStateAny_total_wellformed JVal.null).2.2 []
      (List.replicate 11 JVal.undef) rfl⟩⟩

theorem digitChar_isDigit : ∀ d, d < 10 → (Char.ofNat (48 + d)).isDigit = true := by decide

theorem digitChar_toNat : ∀ d, d < 10 → (Char.ofNat (48 + d)).toNat - 48 = d := by decide

theorem decimalValue_digits (n : Nat) :
    decimalValue ((Nat.digits 10 n).reverse.map (fun d => Char.ofNat (48 + d))) = n := by
  unfold decimalValue
  rw [List.foldl_map]
  have h1 : List.foldl (fun (x y : Nat) => 10 * x + ((Char.ofNat (48 + y)).toNat - 48)) 0
      ((Nat.digits 10 n).reverse)
      = List.foldl (fun x y => 10 * x + y) 0 ((Nat.digits 10 n).reverse) :=
    List.foldl_ext _ _ 0 (fun a d hd => by
      rw [digitChar_toNat d (Nat.digits_lt_base (by norm_num) (List.mem_reverse.mp hd))])
  rw [h1, List.foldl_reverse]
  have hfn : (fun (x : Nat) (y : Nat) => (fun acc d => 10 * acc + d) y x)
      = (fun (d : Nat) (r : Nat) => d + 10 * r) := by
    funext d r
    dsimp only
    omega
  rw [hfn]
  have h2 := Nat.ofDigits_eq_foldr (10 : Nat) (Nat.digits 10 n)
  simp only [Nat.cast_id] at h2
  rw [← h2]
  exact Nat.ofDigits_digits 10 n

theorem jsStringToNumber_jsNatToString (n : Nat) :
    jsStringToNumber (jsNatToString n) = JVal.num n := by
  by_cases h0 : n = 0
  · subst h0
    rfl
  · unfold jsNatToString
    rw [if_neg h0]
    unfold jsStringToNumber
    have hne : (⟨(Nat.digits 10 n).reverse.map (fun d => Char.ofNat (48 + d))⟩ : String) ≠ "" := by
      intro hc
      have : (Nat.digits 10 n).reverse.map (fun d => Char.ofNat (48 + d)) = [] := by
        have := congrArg String.data hc
        simpa using this
      simp only [List.map_eq_nil_iff, List.reverse_eq_nil_iff] at this
      exact (Nat.digits_ne_nil_iff_ne_zero.mpr h0) this
    rw [if_neg hne]
    have hall : (String.mk ((Nat.digits 10 n).reverse.map (fun d => Char.ofNat (48 + d)))).data.all
        Char.isDigit = true := by
      simp only [String.data]
      rw [List.all_eq_true]
      intro c hc
      obtain ⟨d, hd, hdc⟩ := List.mem_map.mp hc
      rw [← hdc]
      exact digitChar_isDigit d (Nat.digits_lt_base (by norm_num) (List.mem_reverse.mp hd))
    rw [if_pos hall]
    have : decimalValue (String.mk ((Nat.digits 10 n).reverse.map
        (fun d => Char.ofNat (48 + d)))).data = n := by
      simpa [String.data] using decimalValue_digits n
    rw [this]

theorem jsToNumber_jsNatToString (n : Nat) :
    jsToNumber (JVal.str (jsNatToString n)) = JVal.num n :=
  jsStringToNumber_jsNatToString n

theorem jsNatToString_injective : Function.Injective jsNatToString := by
  intro a b hab
  have ha := jsStringToNumber_jsNatToString a
  have hb := jsStringToNumber_jsNatToString b
  rw [hab, hb] at ha
  have : ((a : Rat)) = (b : Rat) := by
    injection ha with h
    exact h.symm
  exact_mod_cast this

/-! ## C9: the codec round trip -/

theorem normalizeEntry_toJVal (e : CEntry) (hurl : e.url ≠ "") :
    Codec.normalizeEntry e.toJVal = some ((normalizeC e).toJVal) := by
  cases hm : e.method <;> cases ht : e.token <;> cases hi : e.tokenIssuedAt <;>
    cases hu : e.tokenUsed <;>
      simp [CEntry.toJVal, normalizeC, CMethod.toStr, Codec.normalizeEntry, hm, ht, hi, hu,
        JVal.isObjectLike, JVal.truthy, Codec.decodeMethod, Codec.strOrElse,
        Codec.toFiniteNumberR, toFiniteNumber?, jsToNumber, hurl,
        getField_obj_cons_self, getField_obj_cons_ne, getField_obj_nil]

theorem normalizeEntry_toJVal_getD (e : CEntry) (hurl : e.url ≠ "") :
    (Codec.normalizeEntry e.toJVal).getD JVal.undef = (normalizeC e).toJVal := by
  rw [normalizeEntry_toJVal e hurl]
  rfl

theorem ite_rat_eq_one (b : Bool) :
    ((if b = true then (1 : Rat) else 0) = 1) ↔ b = true := by
  cases b <;> simp

theorem decodeCompactFold_encodeTuple (acc : List (String × JVal)) (id : Nat) (e : CEntry)
    (hid : 0 < id) (hurl : e.url ≠ "") :
    Codec.decodeCompactFold acc (Codec.encodeTuple (jsNatToString id) ((normalizeC e).toJVal))
      = Codec.setKey acc (jsNatToString id) ((normalizeC e).toJVal) := by
  cases hm : e.method <;>
    simp [normalizeC, hm, CEntry.toJVal, CMethod.toStr, Codec.encodeTuple,
      Codec.decodeCompactFold, Codec.decodeTuple, Codec.decodeMethod, Codec.strOrElse,
      Codec.toFiniteNumber, Codec.toFiniteNumberR, Codec.METHOD_DISCARD, Codec.METHOD_PAGE,
      toFiniteNumber?, jsToNumber, jsStringToNumber_jsNatToString, JVal.truthy, List.getD,
      getField_obj_cons_self, getField_obj_cons_ne, getField_obj_nil, hid, hurl,
      ite_rat_eq_one]

theorem dedupKeys_eq_self (l : List (String × JVal)) (h : (l.map Prod.fst).Nodup) :
    dedupKeys l = l := by
  induction l with
  | nil => rw [dedupKeys]
  | cons p rest ih =>
      simp only [List.map_cons, List.nodup_cons] at h
      have h1 : rest.filter (fun q => q.1 ≠ p.1) = rest := by
        rw [List.filter_eq_self]
        intro q hq
        have h2 : p.1 ≠ q.1 := fun hc => h.1 (hc ▸ List.mem_map_of_mem Prod.fst hq)
        simpa using Ne.symm h2
      rw [dedupKeys, h1, ih h.2]

theorem findKey_of_mem {α : Type} (l : List (String × α)) (k : String) (v : α)
    (hnd : (l.map Prod.fst).Nodup) (hm : (k, v) ∈ l) :
    l.find? (fun p => p.1 = k) = some (k, v) := by
  induction l with
  | nil => cases hm
  | cons p rest ih =>
      simp only [List.map_cons, List.nodup_cons] at hnd
      rcases List.mem_cons.mp hm with h | h
      · subst h
        simp [List.find?]
      · have hne : ¬(p.1 = k) := fun hc =>
          hnd.1 (hc ▸ List.mem_map_of_mem Prod.fst h)
        rw [List.find?_cons_of_neg _ (by simpa using hne)]
        exact ih hnd.2 h

theorem findKey_of_not_mem {α : Type} (l : List (String × α)) (k : String)
    (hm : k ∉ l.map Prod.fst) :
    l.find? (fun p => p.1 = k) = none := by
  rw [List.find?_eq_none]
  intro p hp
  simp only [decide_eq_true_eq]
  intro hc
  exact hm (hc ▸ List.mem_map_of_mem Prod.fst hp)

theorem setKey_fresh (acc : List (String × JVal)) (k : String) (v : JVal)
    (h : k ∉ acc.map Prod.fst) :
    Codec.setKey acc k v = acc ++ [(k, v)] := by
  unfold Codec.setKey
  rw [if_neg]
  intro hc
  rw [List.any_eq_true] at hc
  obtain ⟨p, hp, hpk⟩ := hc
  exact h ((by simpa using hpk : p.1 = k) ▸ List.mem_map_of_mem Prod.fst hp)

theorem foldl_setKey_append :
    ∀ (l acc : List (String × JVal)), ((acc ++ l).map Prod.fst).Nodup →
      l.foldl (fun a p => Codec.setKey a p.1 p.2) acc = acc ++ l := by
  intro l
  induction l with
  | nil => intro acc _; simp
  | cons p rest ih =>
      intro acc hnd
      have hpm : List.Perm (acc ++ p :: rest) (p :: (acc ++ rest)) := List.perm_middle
      have hperm : ((acc ++ p :: rest).map Prod.fst).Perm
          (p.1 :: ((acc ++ rest).map Prod.fst)) := by
        simpa using List.Perm.map Prod.fst hpm
      have hnd2 := (List.Perm.nodup_iff hperm).mp hnd
      simp only [List.nodup_cons] at hnd2
      have hk : p.1 ∉ acc.map Prod.fst := fun hc =>
        hnd2.1 (by simp only [List.map_append, List.mem_append]; exact Or.inl hc)
      rw [List.foldl_cons, setKey_fresh acc p.1 p.2 hk]
      have h3 := ih (acc ++ [p]) (by simpa using hnd)
      simpa using h3

theorem filterMap_eq_map_of_some {α β : Type} (f : α → Option β) (g : α → β) :
    ∀ (l : List α), (∀ x ∈ l, f x = some (g x)) → l.filterMap f = l.map g := by
  intro l
  induction l with
  | nil => intro _; rfl
  | cons a l ih =>
      intro h
      rw [List.filterMap_cons, h a (List.mem_cons_self a l), List.map_cons,
        ih (fun x hx => h x (List.mem_cons_of_mem a hx))]

theorem decoded_list_eval (s : CState) (hval : ValidCState s)
    (t : List (String × JVal))
    (hsub : ∀ p ∈ t, ∃ q, q ∈ s ∧ p = (jsNatToString q.1, q.2.toJVal))
    (hnd : (t.map Prod.fst).Nodup) :
    t.foldl Codec.decodeLegacyFold []
      = t.map (fun p => (p.1, (Codec.normalizeEntry p.2).getD JVal.undef))
    ∧ (t.filterMap (fun p => (Codec.normalizeEntry p.2).map (Codec.encodeTuple p.1))).foldl
        Codec.decodeCompactFold []
      = t.map (fun p => (p.1, (Codec.normalizeEntry p.2).getD JVal.undef)) := by
  have hkeys : (t.map (fun p => (p.1, (Codec.normalizeEntry p.2).getD JVal.undef))).map Prod.fst
      = t.map Prod.fst := by
    simp [List.map_map, Function.comp]
  have happ := foldl_setKey_append
    (t.map (fun p => (p.1, (Codec.normalizeEntry p.2).getD JVal.undef))) []
    (by simpa [hkeys] using hnd)
  constructor
  · have hleg : ∀ (a : List (String × JVal)), ∀ p ∈ t,
        Codec.decodeLegacyFold a p
          = Codec.setKey a p.1 ((Codec.normalizeEntry p.2).getD JVal.undef) := by
      intro a p hp
      obtain ⟨q, hq, rfl⟩ := hsub p hp
      have hurl := (hval.1 q hq).2
      simp [Codec.decodeLegacyFold, normalizeEntry_toJVal q.2 hurl]
    rw [List.foldl_ext _ _ [] hleg, ← List.foldl_map
      (fun p => (p.1, (Codec.normalizeEntry p.2).getD JVal.undef))
      (fun a p => Codec.setKey a p.1 p.2) t []]
    simpa using happ
  · have hF : ∀ p ∈ t, (Codec.normalizeEntry p.2).map (Codec.encodeTuple p.1)
        = some (Codec.encodeTuple p.1 ((Codec.normalizeEntry p.2).getD JVal.undef)) := by
      intro p hp
      obtain ⟨q, hq, rfl⟩ := hsub p hp
      have hurl := (hval.1 q hq).2
      rw [normalizeEntry_toJVal q.2 hurl]
      rfl
    rw [filterMap_eq_map_of_some _
      (fun p => Codec.encodeTuple p.1 ((Codec.normalizeEntry p.2).getD JVal.undef)) t hF]
    rw [List.foldl_map]
    have hcf : ∀ (a : List (String × JVal)), ∀ p ∈ t,
        Codec.decodeCompactFold a
            (Codec.encodeTuple p.1 ((Codec.normalizeEntry p.2).getD JVal.undef))
          = Codec.setKey a p.1 ((Codec.normalizeEntry p.2).getD JVal.undef) := by
      intro a p hp
      obtain ⟨q, hq, rfl⟩ := hsub p hp
      have hurl := (hval.1 q hq).2
      have hid := (hval.1 q hq).1
      rw [normalizeEntry_toJVal_getD q.2 hurl]
      exact decodeCompactFold_encodeTuple a q.1 q.2 hid hurl
    rw [List.foldl_ext _ _ [] hcf, ← List.foldl_map
      (fun p => (p.1, (Codec.normalizeEntry p.2).getD JVal.undef))
      (fun a p => Codec.setKey a p.1 p.2) t []]
    simpa using happ

theorem decodeStateAny_encodeStateV2 (s : CState) (hval : ValidCState s) :
    ∃ D : List (String × JVal),
      Codec.decodeStateAny (Codec.encodeStateV2 (CState.toJVal s))
        = JVal.obj [("suspendedTabs", JVal.obj D)]
      ∧ (D.map Prod.fst).Perm (s.map (fun p => jsNatToString p.1))
      ∧ (D.map Prod.fst).Nodup
      ∧ ∀ q ∈ s, (jsNatToString q.1, (normalizeC q.2).toJVal) ∈ D := by
  have hmkeys : ((s.map (fun p => (jsNatToString p.1, p.2.toJVal))).map Prod.fst)
      = s.map (fun p => jsNatToString p.1) := by
    simp [List.map_map, Function.comp]
  have hnd_m : ((s.map (fun p => (jsNatToString p.1, p.2.toJVal))).map Prod.fst).Nodup := by
    rw [hmkeys]
    have h1 : s.map (fun p => jsNatToString p.1) = (s.map Prod.fst).map jsNatToString := by
      simp [List.map_map, Function.comp]
    rw [h1]
    exact List.Nodup.map jsNatToString_injective hval.2
  have hperm := List.mergeSort_perm (s.map (fun p => (jsNatToString p.1, p.2.toJVal)))
    (fun a b => Codec.entryKeyNum a ≤ Codec.entryKeyNum b)
  have hsub_t : ∀ p ∈ (s.map (fun p => (jsNatToString p.1, p.2.toJVal))).mergeSort
      (fun a b => Codec.entryKeyNum a ≤ Codec.entryKeyNum b),
      ∃ q, q ∈ s ∧ p = (jsNatToString q.1, q.2.toJVal) := by
    intro p hp
    have hp2 := hperm.mem_iff.mp hp
    obtain ⟨q, hq, hqe⟩ := List.mem_map.mp hp2
    exact ⟨q, hq, hqe.symm⟩
  have hnd_t := (List.Perm.nodup_iff (List.Perm.map Prod.fst hperm)).mpr hnd_m
  have hD := (decoded_list_eval s hval _ hsub_t hnd_t).2
  refine ⟨((s.map (fun p => (jsNatToString p.1, p.2.toJVal))).mergeSort
      (fun a b => Codec.entryKeyNum a ≤ Codec.entryKeyNum b)).map
      (fun p => (p.1, (Codec.normalizeEntry p.2).getD JVal.undef)), ?_, ?_, ?_, ?_⟩
  · have hsrc : (CState.toJVal s).getField "suspendedTabs"
        = JVal.obj (s.map (fun p => (jsNatToString p.1, p.2.toJVal))) := by
      simp [CState.toJVal, getField_obj_cons_self]
    have henc : Codec.encodeStateV2 (CState.toJVal s)
        = JVal.obj [("v", JVal.num 2), ("tabs", JVal.arr
            (((s.map (fun p => (jsNatToString p.1, p.2.toJVal))).mergeSort
              (fun a b => Codec.entryKeyNum a ≤ Codec.entryKeyNum b)).filterMap
              (fun p => (Codec.normalizeEntry p.2).map (Codec.encodeTuple p.1))))] := by
      simp only [Codec.encodeStateV2, hsrc, JVal.truthy, JVal.entriesOf, if_true,
        dedupKeys_eq_self _ hnd_m]
    rw [henc]
    simp only [Codec.decodeStateAny, Codec.decodeCompactState, JVal.isObjectLike,
      getField_obj_cons_self, getField_obj_cons_ne, getField_obj_nil]
    norm_num
    rw [getField_obj_cons_ne _ _ _ _ (by decide), getField_obj_cons_self]
    exact hD
  · rw [show (((s.map (fun p => (jsNatToString p.1, p.2.toJVal))).mergeSort
      (fun a b => Codec.entryKeyNum a ≤ Codec.entryKeyNum b)).map
      (fun p => (p.1, (Codec.normalizeEntry p.2).getD JVal.undef))).map Prod.fst
      = ((s.map (fun p => (jsNatToString p.1, p.2.toJVal))).mergeSort
      (fun a b => Codec.entryKeyNum a ≤ Codec.entryKeyNum b)).map Prod.fst from by
        simp [List.map_map, Function.comp]]
    rw [← hmkeys]
    exact List.Perm.map Prod.fst hperm
  · rw [show (((s.map (fun p => (jsNatToString p.1, p.2.toJVal))).mergeSort
      (fun a b => Codec.entryKeyNum a ≤ Codec.entryKeyNum b)).map
      (fun p => (p.1, (Codec.normalizeEntry p.2).getD JVal.undef))).map Prod.fst
      = ((s.map (fun p => (jsNatToString p.1, p.2.toJVal))).mergeSort
      (fun a b => Codec.entryKeyNum a ≤ Codec.entryKeyNum b)).map Prod.fst from by
        simp [List.map_map, Function.comp]]
    exact hnd_t
  · intro q hq
    have hurl := (hval.1 q hq).2
    have hmem_m : (jsNatToString q.1, q.2.toJVal)
        ∈ s.map (fun p => (jsNatToString p.1, p.2.toJVal)) :=
      List.mem_map.mpr ⟨q, hq, rfl⟩
    have hmem_t := hperm.mem_iff.mpr hmem_m
    have hmem_D := List.mem_map_of_mem
      (fun p => (p.1, (Codec.normalizeEntry p.2).getD JVal.undef)) hmem_t
    simpa [normalizeEntry_toJVal_getD q.2 hurl] using hmem_D

theorem decodeStateAny_legacy (s : CState) (hval : ValidCState s) :
    ∃ E : List (String × JVal),
      Codec.decodeStateAny (CState.toJVal s)
        = JVal.obj [("suspendedTabs", JVal.obj E)]
      ∧ E.map Prod.fst = s.map (fun p => jsNatToString p.1)
      ∧ (E.map Prod.fst).Nodup
      ∧ ∀ q ∈ s, (jsNatToString q.1, (normalizeC q.2).toJVal) ∈ E := by
  have hmkeys : ((s.map (fun p => (jsNatToString p.1, p.2.toJVal))).map Prod.fst)
      = s.map (fun p => jsNatToString p.1) := by
    simp [List.map_map, Function.comp]
  have hnd_m : ((s.map (fun p => (jsNatToString p.1, p.2.toJVal))).map Prod.fst).Nodup := by
    rw [hmkeys]
    have h1 : s.map (fun p => jsNatToString p.1) = (s.map Prod.fst).map jsNatToString := by
      simp [List.map_map, Function.comp]
    rw [h1]
    exact List.Nodup.map jsNatToString_injective hval.2
  have hsub_m : ∀ p ∈ s.map (fun p => (jsNatToString p.1, p.2.toJVal)),
      ∃ q, q ∈ s ∧ p = (jsNatToString q.1, q.2.toJVal) := by
    intro p hp
    obtain ⟨q, hq, hqe⟩ := List.mem_map.mp hp
    exact ⟨q, hq, hqe.symm⟩
  have hE := (decoded_list_eval s hval _ hsub_m hnd_m).1
  refine ⟨(s.map (fun p => (jsNatToString p.1, p.2.toJVal))).map
      (fun p => (p.1, (Codec.normalizeEntry p.2).getD JVal.undef)), ?_, ?_, ?_, ?_⟩
  · have hsrc : (CState.toJVal s).getField "suspendedTabs"
        = JVal.obj (s.map (fun p => (jsNatToString p.1, p.2.toJVal))) := by
      simp [CState.toJVal, getField_obj_cons_self]
    have hv : (CState.toJVal s).getField "v" = JVal.undef := by
      simp [CState.toJVal, JVal.getField, List.find?]
    have hobj : (CState.toJVal s).isObjectLike = true := rfl
    simp only [Codec.decodeStateAny, hobj, hv]
    norm_num
    simp only [Codec.decodeLegacyState, hsrc]
    have hobj2 : (JVal.obj (s.map (fun p => (jsNatToString p.1, p.2.toJVal)))).isObjectLike
        = true := rfl
    simp only [hobj2, JVal.entriesOf]
    norm_num
    rw [dedupKeys_eq_self _ hnd_m, hE]
    simp [List.map_map]
  · rw [show ((s.map (fun p => (jsNatToString p.1, p.2.toJVal))).map
      (fun p => (p.1, (Codec.normalizeEntry p.2).getD JVal.undef))).map Prod.fst
      = (s.map (fun p => (jsNatToString p.1, p.2.toJVal))).map Prod.fst from by
        simp [List.map_map, Function.comp]]
    exact hmkeys
  · rw [show ((s.map (fun p => (jsNatToString p.1, p.2.toJVal))).map
      (fun p => (p.1, (Codec.normalizeEntry p.2).getD JVal.undef))).map Prod.fst
      = (s.map (fun p => (jsNatToString p.1, p.2.toJVal))).map Prod.fst from by
        simp [List.map_map, Function.comp]]
    exact hnd_m
  · intro q hq
    have hurl := (hval.1 q hq).2
    have hmem_m : (jsNatToString q.1, q.2.toJVal)
        ∈ s.map (fun p => (jsNatToString p.1, p.2.toJVal)) :=
      List.mem_map.mpr ⟨q, hq, rfl⟩
    have hmem_E := List.mem_map_of_mem
      (fun p => (p.1, (Codec.normalizeEntry p.2).getD JVal.undef)) hmem_m
    simpa [normalizeEntry_toJVal_getD q.2 hurl] using hmem_E

theorem decoded_lookup (s : CState) (D : List (String × JVal))
    (hnd : (D.map Prod.fst).Nodup)
    (hkeys : ∀ k, k ∈ D.map Prod.fst → k ∈ s.map (fun p => jsNatToString p.1))
    (hmem : ∀ q ∈ s, (jsNatToString q.1, (normalizeC q.2).toJVal) ∈ D)
    (id : Nat) :
    JVal.getField (JVal.obj D) (jsNatToString id)
      = (match CState.lookup s id with
         | some e => (normalizeC e).toJVal
         | none => JVal.undef) := by
  cases hl : CState.lookup s id with
  | some e =>
      unfold CState.lookup at hl
      cases hf : s.find? (fun p => p.1 = id) with
      | none =>
          simp only [hf] at hl
          exact Option.noConfusion hl
      | some pr =>
          simp only [hf] at hl
          have hpre : pr.2 = e := by injection hl
          have hpr1 : pr.1 = id := by simpa using List.find?_some hf
          have hprs : pr ∈ s := List.mem_of_find?_eq_some hf
          have h1 := hmem pr hprs
          rw [hpr1, hpre] at h1
          simp only [JVal.getField, findKey_of_mem D _ _ hnd h1]
  | none =>
      have hnone : ∀ p ∈ s, ¬(p.1 = id) := by
        unfold CState.lookup at hl
        cases hf : s.find? (fun p => p.1 = id) with
        | some pr =>
            simp only [hf] at hl
            exact Option.noConfusion hl
        | none =>
            intro p hp
            simpa using List.find?_eq_none.mp hf p hp
      have hk : jsNatToString id ∉ D.map Prod.fst := by
        intro hc
        obtain ⟨p, hp, hpe⟩ := List.mem_map.mp (hkeys _ hc)
        exact hnone p hp (jsNatToString_injective hpe)
      simp only [JVal.getField, findKey_of_not_mem D _ hk]

/-- C9: the codec round trip. For every valid canonical state (positive
integer ids, no duplicate ids, non-empty urls), decoding the compact v2
encoding reproduces an equivalent entry set: lookup at any id yields
exactly the normalized entry stored there (and `undefined` at absent
ids), and the decoded key set is a permutation of the original id set
(re-ordered only by the numeric sort of `encodeStateV2`).
`decodeStateAny` also accepts the legacy keyed-object form of the same
state, normalizing it to the identical canonical shape with the key
order preserved. -/
theorem codec_round_trip (s : CState) (hval : ValidCState s) :
    (∀ id : Nat,
      decodedEntry (Codec.decodeStateAny (Codec.encodeStateV2 (CState.toJVal s)))
          (jsNatToString id)
        = (match CState.lookup s id with
           | some e => (normalizeC e).toJVal
           | none => JVal.undef))
    ∧ (decodedKeys (Codec.decodeStateAny (Codec.encodeStateV2 (CState.toJVal s)))).Perm
        (s.map (fun p => jsNatToString p.1))
    ∧ (∀ id : Nat,
      decodedEntry (Codec.decodeStateAny (CState.toJVal s)) (jsNatToString id)
        = (match CState.lookup s id with
           | some e => (normalizeC e).toJVal
           | none => JVal.undef))
    ∧ decodedKeys (Codec.decodeStateAny (CState.toJVal s))
        = s.map (fun p => jsNatToString p.1) := by
  obtain ⟨D, hDeq, hDperm, hDnd, hDmem⟩ := decodeStateAny_encodeStateV2 s hval
  obtain ⟨E, hEeq, hEkeys, hEnd, hEmem⟩ := decodeStateAny_legacy s hval
  refine ⟨?_, ?_, ?_, ?_⟩
  · intro id
    simp only [decodedEntry, hDeq, getField_obj_cons_self]
    exact decoded_lookup s D hDnd (fun k hk => hDperm.mem_iff.mp hk) hDmem id
  · simp only [decodedKeys, hDeq, getField_obj_cons_self]
    exact hDperm
  · intro id
    simp only [decodedEntry, hEeq, getField_obj_cons_self]
    exact decoded_lookup s E hEnd (fun k hk => hEkeys ▸ hk) hEmem id
  · simp only [decodedKeys, hEeq, getField_obj_cons_self]
    exact hEkeys

/-- Witness for C9: the round trip instantiated at a concrete two-entry
state (one `page` entry, one `discard` entry), with the validity
hypothesis discharged by computation. -/
theorem codec_round_trip_witness :
    ValidCState sampleCState
    ∧ ((∀ id : Nat,
        decodedEntry (Codec.decodeStateAny (Codec.encodeStateV2 (CState.toJVal sampleCState)))
            (jsNatToString id)
          = (match CState.lookup sampleCState id with
             | some e => (normalizeC e).toJVal
             | none => JVal.undef))
      ∧ (decodedKeys (Codec.decodeStateAny (Codec.encodeStateV2
            (CState.toJVal sampleCState)))).Perm
          (sampleCState.map (fun p => jsNatToString p.1))
      ∧ (∀ id : Nat,
        decodedEntry (Codec.decodeStateAny (CState.toJVal sampleCState)) (jsNatToString id)
          = (match CState.lookup sampleCState id with
             | some e => (normalizeC e).toJVal
             | none => JVal.undef))
      ∧ decodedKeys (Codec.decodeStateAny (CState.toJVal sampleCState))
          = sampleCState.map (fun p => jsNatToString p.1)) :=
  ⟨⟨by unfold sampleCState; decide, by unfold sampleCState; decide⟩,
   codec_round_trip sampleCState
     ⟨by unfold sampleCState; decide, by unfold sampleCState; decide⟩⟩
